import Mathlib

/-!
# Status screen of the graphical LCD (`status_screen_DOGM.cpp`)

A shallow embedding of the temperature-history graph, the Z bar, the XY point,
the fan gauge needle and the axis value text of
`src/lcd/dogm/status_screen_DOGM.cpp`, followed by the theorems that settle the
properties stated about them.

Conventions of the embedding:

* the four global `uint16_t[GRAPHWIDTH]` arrays are maps from index to value;
* `uint16_t` operands of the graph arithmetic are promoted to `int`, so that
  arithmetic is carried out in `Int` with truncating division (`Int.tdiv`);
* `uint8_t` loop indices are natural numbers reduced modulo `256` where the
  source converts to `uint8_t`;
* `float` values (the logical position) are rationals and every
  floating-point operation is the exact operation followed by a rounding
  (`Rounding`), over which the statements are universally quantified;
* the `double` expression of the gauge needle, with `cos` and `sin`, is read
  over the real numbers; a floating-point argument is converted to a pixel
  coordinate by truncation toward zero.
-/

namespace StatusScreen

/-! ## Temperature history: data model -/

/-- Width of the temperature graph: `#define GRAPHWIDTH 46`. -/
def GRAPHWIDTH : Nat := 46

/-- The file-scope variables of the temperature graph (lines 338-347):
`time`, `iterations`, the four history arrays and the four range bounds. -/
structure GraphState where
  time : Nat
  iterations : Nat
  bedTemp : Nat → Nat
  bedTargetTemp : Nat → Nat
  hotendTemp : Nat → Nat
  hotendTargetTemp : Nat → Nat
  bedMinTemp : Nat
  bedMaxTemp : Nat
  hotendMinTemp : Nat
  hotendMaxTemp : Nat

/-- The state at program start: every file-scope variable is zero
(`time = 0`, `iterations = 0`, the arrays `= {0}`, and the range bounds,
which have static storage and no initialiser). -/
def GraphState.init : GraphState where
  time := 0
  iterations := 0
  bedTemp := fun _ => 0
  bedTargetTemp := fun _ => 0
  hotendTemp := fun _ => 0
  hotendTargetTemp := fun _ => 0
  bedMinTemp := 0
  bedMaxTemp := 0
  hotendMinTemp := 0
  hotendMaxTemp := 0

/-- The live temperatures read by one sampling tick, as the `uint16_t` values
that the four assignments of lines 412-415 store:
`degBed()`, `degTargetBed()`, `degHotend(0)`, `degTargetHotend(0)`. -/
structure Reading where
  degBed : Nat
  degTargetBed : Nat
  degHotend : Nat
  degTargetHotend : Nat

/-- Array store `a[i] = v`. -/
def setAt (a : Nat → Nat) (i v : Nat) : Nat → Nat :=
  fun j => if j = i then v else a j

/-! ## Temperature history: the sampling tick (lines 392-417) -/

/-- Lines 394-397: the range bounds are seeded from slot `0` of the arrays. -/
def seedRange (s : GraphState) : GraphState :=
  { s with
    bedMinTemp := if s.bedTemp 0 < s.bedTargetTemp 0 then s.bedTemp 0 else s.bedTargetTemp 0
    bedMaxTemp := if s.bedTemp 0 > s.bedTargetTemp 0 then s.bedTemp 0 else s.bedTargetTemp 0
    hotendMinTemp :=
      if s.hotendTemp 0 < s.hotendTargetTemp 0 then s.hotendTemp 0 else s.hotendTargetTemp 0
    hotendMaxTemp :=
      if s.hotendTemp 0 > s.hotendTargetTemp 0 then s.hotendTemp 0 else s.hotendTargetTemp 0 }

/-- Lines 399-410: the body of the shift loop at index `i`. The four slots
`i` receive slots `i + 1`, then the bounds are folded over the new slots `i`. -/
def shiftStep (i : Nat) (s : GraphState) : GraphState :=
  let bedTemp := setAt s.bedTemp i (s.bedTemp (i + 1))
  let bedTargetTemp := setAt s.bedTargetTemp i (s.bedTargetTemp (i + 1))
  let hotendTemp := setAt s.hotendTemp i (s.hotendTemp (i + 1))
  let hotendTargetTemp := setAt s.hotendTargetTemp i (s.hotendTargetTemp (i + 1))
  let bedMin1 := if bedTemp i < s.bedMinTemp then bedTemp i else s.bedMinTemp
  let bedMin2 := if bedTargetTemp i < bedMin1 then bedTargetTemp i else bedMin1
  let bedMax1 := if bedTemp i > s.bedMaxTemp then bedTemp i else s.bedMaxTemp
  let bedMax2 := if bedTargetTemp i > bedMax1 then bedTargetTemp i else bedMax1
  let hotendMin1 := if hotendTemp i < s.hotendMinTemp then hotendTemp i else s.hotendMinTemp
  let hotendMin2 := if hotendTargetTemp i < hotendMin1 then hotendTargetTemp i else hotendMin1
  let hotendMax1 := if hotendTemp i > s.hotendMaxTemp then hotendTemp i else s.hotendMaxTemp
  let hotendMax2 := if hotendTargetTemp i > hotendMax1 then hotendTargetTemp i else hotendMax1
  { s with
    bedTemp := bedTemp
    bedTargetTemp := bedTargetTemp
    hotendTemp := hotendTemp
    hotendTargetTemp := hotendTargetTemp
    bedMinTemp := bedMin2
    bedMaxTemp := bedMax2
    hotendMinTemp := hotendMin2
    hotendMaxTemp := hotendMax2 }

/-- The first index of both loops, `uint8_t i = GRAPHWIDTH - iterations`:
the `int` difference converted to `uint8_t`. -/
def firstIndex (iterations : Nat) : Nat :=
  (GRAPHWIDTH + 256 - iterations) % 256

/-- The indices visited by `for (i = first; i < bound; i++)`. -/
def loopIndices (first bound : Nat) : List Nat :=
  List.range' first (bound - first)

/-- Lines 398-411: the shift loop, `i` from `GRAPHWIDTH - iterations` while
`i < GRAPHWIDTH - 1`. -/
def shiftLoop (s : GraphState) : GraphState :=
  (loopIndices (firstIndex s.iterations) (GRAPHWIDTH - 1)).foldl (fun st i => shiftStep i st) s

/-- Lines 412-416: the live values are stored in slot `GRAPHWIDTH - 1` and the
refresh counter advances until it equals `GRAPHWIDTH`. -/
def appendReading (r : Reading) (s : GraphState) : GraphState :=
  { s with
    bedTemp := setAt s.bedTemp (GRAPHWIDTH - 1) r.degBed
    bedTargetTemp := setAt s.bedTargetTemp (GRAPHWIDTH - 1) r.degTargetBed
    hotendTemp := setAt s.hotendTemp (GRAPHWIDTH - 1) r.degHotend
    hotendTargetTemp := setAt s.hotendTargetTemp (GRAPHWIDTH - 1) r.degTargetHotend
    iterations := if s.iterations ≥ GRAPHWIDTH then GRAPHWIDTH else s.iterations + 1 }

/-- Lines 393-416: the body of the `if`, run when the interval has elapsed. -/
def sampleTick (now : Nat) (r : Reading) (s : GraphState) : GraphState :=
  appendReading r (shiftLoop (seedRange { s with time := now }))

/-- The value of `millis() - time`: `millis_t` is an unsigned 32-bit integer
(its typedef lives outside this file), so the difference wraps modulo `2^32`. -/
def elapsedMillis (now time : Nat) : Nat :=
  (now + 2 ^ 32 - time % 2 ^ 32) % 2 ^ 32

/-- Lines 392-417: the time-gated update of the temperature graph, with `now`
the value of `millis()` during this call. -/
def updateGraph (now : Nat) (r : Reading) (s : GraphState) : GraphState :=
  if elapsedMillis now s.time > 3000 then sampleTick now r s else s

/-- A run of elapsed ticks: each entry is the clock value and the reading of
one tick whose `if` body is executed. -/
def elapsedTicks (ticks : List (Nat × Reading)) (s : GraphState) : GraphState :=
  ticks.foldl (fun st t => sampleTick t.1 t.2 st) s

/-- A run of calls of the gated update with arbitrary clock values. -/
def updateCalls (calls : List (Nat × Reading)) (s : GraphState) : GraphState :=
  calls.foldl (fun st t => updateGraph t.1 t.2 st) s

/-! ## Temperature graph: the renderer (lines 418-423) -/

/-- The vertical offset `(value - min + 1) * 21 / (max - min + 2)` of lines
419-422, in `int` arithmetic with the truncating division of C. -/
def graphOffset (value min max : Int) : Int :=
  ((value - min + 1) * 21).tdiv (max - min + 2)

/-- The divisor `max - min + 2` of lines 419-422. -/
def graphDivisor (min max : Int) : Int :=
  max - min + 2

/-- The row `baseline - offset` passed to `drawPixel`. -/
def graphRow (baseline value min max : Int) : Int :=
  baseline - graphOffset value min max

/-- The four `drawPixel` calls of one pass of the plot loop at index `i`. -/
def plotStep (s : GraphState) (i : Nat) : List (Int × Int) :=
  [ (33 + (i : Int), graphRow 21 (s.hotendTemp i) s.hotendMinTemp s.hotendMaxTemp),
    (33 + (i : Int), graphRow 21 (s.hotendTargetTemp i) s.hotendMinTemp s.hotendMaxTemp),
    (33 + (i : Int), graphRow 44 (s.bedTemp i) s.bedMinTemp s.bedMaxTemp),
    (33 + (i : Int), graphRow 44 (s.bedTargetTemp i) s.bedMinTemp s.bedMaxTemp) ]

/-- Lines 418-423: the plot loop, `i` from `GRAPHWIDTH - iterations` while
`i < GRAPHWIDTH`; the result is the sequence of pixels drawn. -/
def plotGraph (s : GraphState) : List (Int × Int) :=
  (loopIndices (firstIndex s.iterations) GRAPHWIDTH).flatMap (plotStep s)

/-- The readings of a heater held at `actual = target = 200` (bed at `0`). -/
def heater200 : Reading := ⟨0, 0, 200, 200⟩

/-! ## Axis value text (lines 306-335) -/

/-- The code of a character, as the `int` value of a C `char`. -/
def charCode (c : Char) : Int := c.toNat

/-- The character codes of a string literal. -/
def codes (str : String) : List Int := str.toList.map charCode

/-- The text written by `lcd_put_u8str(value)`: the characters at `value` up to
the terminating NUL (the end of the list stands for the terminator when no
NUL occurs before it). -/
def lcd_put_u8str : List Int → List Int
  | [] => []
  | c :: rest => if c = 0 then [] else c :: lcd_put_u8str rest

/-- Line 325: `while (const char c = *value++) lcd_put_wchar(c <= '.' ? c : '?');`
the characters written for an axis that is not homed. -/
def putUnhomed : List Int → List Int
  | [] => []
  | c :: rest =>
    if c = 0 then [] else (if c ≤ charCode '.' then c else charCode '?') :: putUnhomed rest

/-- The axis index `Z_AXIS` of `enum AxisEnum` (declared outside this file). -/
def Z_AXIS : Nat := 2

/-- The bit test `TEST(bits, axis)`. -/
def TEST (bits axis : Nat) : Bool := bits.testBit axis

/-- Lines 321-334 of `_draw_axis_value`: the value text written after the axis
label. `blanking` is the compile-time condition
`NONE(HOME_AFTER_DEACTIVATE, DISABLE_REDUCED_ACCURACY_WARNING)`; `axis_homed`
and `axis_known_position` are the bit masks of the motion module. -/
def _draw_axis_value (blanking : Bool) (axis_homed axis_known_position : Nat)
    (axis : Nat) (value : List Int) (blink : Bool) : List Int :=
  if blink then lcd_put_u8str value
  else if !TEST axis_homed axis then putUnhomed value
  else if blanking && !TEST axis_known_position axis then
    (if axis = Z_AXIS then codes "       " else codes "    ")
  else lcd_put_u8str value

/-! ## Floating-point rounding -/

/-- The rounding that follows each floating-point operation of lines 374 and
381: the value stored is `rnd` of the exact result. A rounding is monotone,
leaves the integers up to `2 ^ 24` unchanged (they are representable) and has
a relative error of at most `2 ^ (-24)`, as round-to-nearest does in IEEE
single precision (and in double precision) away from underflow and overflow. -/
structure Rounding where
  rnd : ℚ → ℚ
  mono : ∀ a b : ℚ, a ≤ b → rnd a ≤ rnd b
  exact : ∀ n : Int, |n| ≤ 2 ^ 24 → rnd (n : ℚ) = (n : ℚ)
  relErr : ∀ q : ℚ, |rnd q - q| ≤ |q| / 2 ^ 24

/-- The rounding of an arithmetic without rounding error. -/
def exactRounding : Rounding where
  rnd := fun q => q
  mono := fun _ _ h => h
  exact := fun _ _ => rfl
  relErr := fun q => by
    rw [sub_self, abs_zero]
    positivity

/-! ## Z bar (lines 373-378) -/

/-- The loop bound `62 - lpos.z * 36 / Z_MAX_POS` of line 374, evaluated in
floating point: the product, the quotient and the difference are each rounded. -/
def zBarBound (R : Rounding) (z zMax : ℚ) : ℚ :=
  R.rnd (62 - R.rnd (R.rnd (z * 36) / zMax))

/-- The decrement `i--` of a `uint16_t`. -/
def dec16 (i : Nat) : Nat := (i + 65535) % 65536

/-- Lines 375-377: the pixels `(j, i)` drawn by the inner loop, `j` from `81`
while `j < 88`. -/
def zBarRow (i : Nat) : List (Nat × Nat) :=
  (loopIndices 81 88).map (fun j => (j, i))

/-- Line 374: the rows visited by `for (uint16_t i = ...; i > bound; i--)`
from the current `i`, in order; `none` when the fuel runs out before the
loop condition fails. -/
def zBarLoop (bound : ℚ) : Nat → Nat → Option (List Nat)
  | 0, _ => none
  | fuel + 1, i =>
    if (i : ℚ) > bound then (zBarLoop bound fuel (dec16 i)).map (fun rest => i :: rest)
    else some []

/-- The rows filled by the Z bar loop started at `i = 63`. -/
def zBarRows (R : Rounding) (fuel : Nat) (z zMax : ℚ) : Option (List Nat) :=
  zBarLoop (zBarBound R z zMax) fuel 63

/-- Lines 374-378: the pixels drawn by the Z bar loops. -/
def zBarPixels (R : Rounding) (fuel : Nat) (z zMax : ℚ) : Option (List (Nat × Nat)) :=
  (zBarRows R fuel z zMax).map (fun rows => rows.flatMap zBarRow)

/-! ## XY point (lines 380-381) -/

/-- The conversion of a `float` argument to the integer pixel coordinate taken
by `drawPixel`: truncation toward zero. -/
def truncate (q : ℚ) : Int :=
  if 0 ≤ q then ⌊q⌋ else ⌈q⌉

/-- Line 381: the pixel
`(91 + lpos.x * 36 / X_MAX_POS, 62 - lpos.y * 36 / Y_MAX_POS)`, both arguments
evaluated in floating point, each operation rounded, then converted. -/
def xyPixel (R : Rounding) (x y xMax yMax : ℚ) : Int × Int :=
  (truncate (R.rnd (91 + R.rnd (R.rnd (x * 36) / xMax))),
   truncate (R.rnd (62 - R.rnd (R.rnd (y * 36) / yMax))))

/-! ## Array indices used by the tick and by the plot loop -/

/-- The array indices read or written by the tick body (lines 394-415) for a
refresh counter `iterations`: slot `0` (the seed of the range), `i` and `i + 1`
for every pass of the shift loop, and slot `GRAPHWIDTH - 1`. -/
def tickIndices (iterations : Nat) : List Nat :=
  0 :: ((loopIndices (firstIndex iterations) (GRAPHWIDTH - 1)).flatMap (fun i => [i, i + 1])
    ++ [GRAPHWIDTH - 1])

/-- The array indices read by the plot loop (lines 418-423). -/
def plotIndices (iterations : Nat) : List Nat :=
  loopIndices (firstIndex iterations) GRAPHWIDTH

/-- A start-up history with two populated slots: refresh counter `2`, slots
`44` and `45` holding readings, every other slot `0`. -/
def twoSlotState : GraphState where
  time := 6002
  iterations := 2
  bedTemp := fun j => if j = 44 then 60 else if j = 45 then 61 else 0
  bedTargetTemp := fun j => if j = 44 then 65 else if j = 45 then 65 else 0
  hotendTemp := fun j => if j = 44 then 200 else if j = 45 then 205 else 0
  hotendTargetTemp := fun j => if j = 44 then 210 else if j = 45 then 210 else 0
  bedMinTemp := 60
  bedMaxTemp := 65
  hotendMinTemp := 200
  hotendMaxTemp := 210

/-! ## The range fold seen per channel family -/

/-- One channel family of the graph: the actual and target series and the
stored range. -/
structure Channel where
  actual : Nat → Nat
  target : Nat → Nat
  lo : Nat
  hi : Nat

/-- The heater family of a state. -/
def hotendChannel (s : GraphState) : Channel :=
  ⟨s.hotendTemp, s.hotendTargetTemp, s.hotendMinTemp, s.hotendMaxTemp⟩

/-- The bed family of a state. -/
def bedChannel (s : GraphState) : Channel :=
  ⟨s.bedTemp, s.bedTargetTemp, s.bedMinTemp, s.bedMaxTemp⟩

/-- The effect of one pass of the shift loop (lines 399-410) on one family. -/
def channelStep (i : Nat) (c : Channel) : Channel where
  actual := setAt c.actual i (c.actual (i + 1))
  target := setAt c.target i (c.target (i + 1))
  lo :=
    if c.target (i + 1) < (if c.actual (i + 1) < c.lo then c.actual (i + 1) else c.lo)
    then c.target (i + 1) else (if c.actual (i + 1) < c.lo then c.actual (i + 1) else c.lo)
  hi :=
    if c.target (i + 1) > (if c.actual (i + 1) > c.hi then c.actual (i + 1) else c.hi)
    then c.target (i + 1) else (if c.actual (i + 1) > c.hi then c.actual (i + 1) else c.hi)

/-- The pre-tick slots over which a tick with refresh counter `k` takes the
range: slot `0` and slots `GRAPHWIDTH - k + 1` to `GRAPHWIDTH - 1`. -/
def rangeSlots (k : Nat) : List Nat :=
  0 :: List.range' (GRAPHWIDTH - k + 1) (k - 1)

/-- The values of both series of a family in the slots `rangeSlots k`. -/
def rangeValues (k : Nat) (actual target : Nat → Nat) : List Nat :=
  (rangeSlots k).flatMap (fun j => [actual j, target j])

/-- The seeding (lines 394-397) and the shift loop (lines 398-411) of a tick
with refresh counter `k`, on one family with series `actual` and `target`. -/
def tickChannel (k : Nat) (actual target : Nat → Nat) : Channel :=
  (loopIndices (firstIndex k) (GRAPHWIDTH - 1)).foldl (fun c i => channelStep i c)
    ⟨actual, target,
      if actual 0 < target 0 then actual 0 else target 0,
      if actual 0 > target 0 then actual 0 else target 0⟩

/-! ## Fan gauge needle (lines 384-390) -/

/-- The constant of line 66: `#define PI 3.14159`. -/
noncomputable def PI : ℝ := 3.14159

/-- Line 390, third argument of `drawLine`:
`53 - cos((fanSpeed * PI - PI) / 100) * 15`. -/
noncomputable def needleX (fanSpeed : Nat) : ℝ :=
  53 - Real.cos (((fanSpeed : ℝ) * PI - PI) / 100) * 15

/-- Line 390, fourth argument of `drawLine`:
`63 - sin(fanSpeed * PI / 100) * 15`. -/
noncomputable def needleY (fanSpeed : Nat) : ℝ :=
  63 - Real.sin ((fanSpeed : ℝ) * PI / 100) * 15

/-- The conversion of a `double` argument to the integer pixel coordinate
taken by `drawLine`: truncation toward zero. -/
noncomputable def truncateReal (x : ℝ) : Int :=
  if 0 ≤ x then ⌊x⌋ else ⌈x⌉

/-- The end point of the needle in pixel coordinates. -/
noncomputable def needleEnd (fanSpeed : Nat) : Int × Int :=
  (truncateReal (needleX fanSpeed), truncateReal (needleY fanSpeed))

/-! ## Auxiliary definitions used in the statements -/

/-- The array `a` after the shift loop has run over the indices
`first, ..., first + n - 1`. -/
def shifted (first n : Nat) (a : Nat → Nat) : Nat → Nat :=
  fun j => if first ≤ j ∧ j < first + n then a (j + 1) else a j

/-- Slot `j` of an array after one elapsed tick, for a refresh counter
`k ≤ GRAPHWIDTH`. -/
def ticked (k : Nat) (a : Nat → Nat) (v : Nat) : Nat → Nat :=
  fun j => if j = GRAPHWIDTH - 1 then v
    else if GRAPHWIDTH - k ≤ j ∧ j < GRAPHWIDTH - 1 then a (j + 1) else a j

/-- The stored ranges are ordered: `min ≤ max` for both channel families. -/
def RangeOrdered (s : GraphState) : Prop :=
  s.hotendMinTemp ≤ s.hotendMaxTemp ∧ s.bedMinTemp ≤ s.bedMaxTemp

/-- The substitution of line 325 on one character. -/
def placeholderChar (c : Int) : Int :=
  if c ≤ charCode '.' then c else charCode '?'

/-- The 46 calls of the end-to-end scenario: the clock advances by 3001 ms
between calls and the heater reads `actual = target = 200` at each. -/
def constantFeed : List (Nat × Reading) :=
  (List.range 46).map (fun k => (3001 * (k + 1), heater200))

/-- A full history whose slot `j` holds `j` (hotend), `100 + j` (hotend
target), `200 + j` (bed) and `300 + j` (bed target). -/
def rampState : GraphState where
  time := 0
  iterations := 46
  bedTemp := fun j => 200 + j
  bedTargetTemp := fun j => 300 + j
  hotendTemp := fun j => j
  hotendTargetTemp := fun j => 100 + j
  bedMinTemp := 0
  bedMaxTemp := 0
  hotendMinTemp := 0
  hotendMaxTemp := 0

/-! ## Lemmas on the shift loop -/

theorem foldl_shiftStep_arrays (n : Nat) : ∀ (first : Nat) (s : GraphState),
    ((List.range' first n).foldl (fun st i => shiftStep i st) s).bedTemp
        = shifted first n s.bedTemp ∧
    ((List.range' first n).foldl (fun st i => shiftStep i st) s).bedTargetTemp
        = shifted first n s.bedTargetTemp ∧
    ((List.range' first n).foldl (fun st i => shiftStep i st) s).hotendTemp
        = shifted first n s.hotendTemp ∧
    ((List.range' first n).foldl (fun st i => shiftStep i st) s).hotendTargetTemp
        = shifted first n s.hotendTargetTemp ∧
    ((List.range' first n).foldl (fun st i => shiftStep i st) s).iterations = s.iterations ∧
    ((List.range' first n).foldl (fun st i => shiftStep i st) s).time = s.time := by
  have key : ∀ (first m : Nat) (a : Nat → Nat),
      shifted (first + 1) m (setAt a first (a (first + 1))) = shifted first (m + 1) a := by
    intro first m a
    funext j
    simp only [shifted, setAt]
    by_cases h1 : j = first
    · subst h1
      simp
    · by_cases h2 : first + 1 ≤ j ∧ j < first + 1 + m
      · have h3 : first ≤ j ∧ j < first + (m + 1) := by omega
        have h4 : j + 1 ≠ first := by omega
        simp [h2, h3, h4]
      · have h3 : ¬ (first ≤ j ∧ j < first + (m + 1)) := by omega
        simp [h1, h2, h3]
  induction n with
  | zero =>
    intro first s
    have h0 : ∀ a : Nat → Nat, shifted first 0 a = a := by
      intro a
      funext j
      have : ¬ (first ≤ j ∧ j < first + 0) := by omega
      simp [shifted, this]
    simp [h0]
  | succ m ih =>
    intro first s
    simp only [List.range', List.foldl_cons]
    obtain ⟨h1, h2, h3, h4, h5, h6⟩ := ih (first + 1) (shiftStep first s)
    refine ⟨?_, ?_, ?_, ?_, ?_, ?_⟩
    · rw [h1]; exact key first m s.bedTemp
    · rw [h2]; exact key first m s.bedTargetTemp
    · rw [h3]; exact key first m s.hotendTemp
    · rw [h4]; exact key first m s.hotendTargetTemp
    · rw [h5]; rfl
    · rw [h6]; rfl

theorem firstIndex_of_le (k : Nat) (h : k ≤ GRAPHWIDTH) : firstIndex k = GRAPHWIDTH - k := by
  unfold firstIndex GRAPHWIDTH at *
  omega

theorem sampleTick_arrays (now : Nat) (r : Reading) (s : GraphState)
    (h : s.iterations ≤ GRAPHWIDTH) :
    (sampleTick now r s).bedTemp = ticked s.iterations s.bedTemp r.degBed ∧
    (sampleTick now r s).bedTargetTemp = ticked s.iterations s.bedTargetTemp r.degTargetBed ∧
    (sampleTick now r s).hotendTemp = ticked s.iterations s.hotendTemp r.degHotend ∧
    (sampleTick now r s).hotendTargetTemp
        = ticked s.iterations s.hotendTargetTemp r.degTargetHotend := by
  have hfi : firstIndex (seedRange { s with time := now }).iterations
      = GRAPHWIDTH - s.iterations := firstIndex_of_le _ h
  have key : ∀ (a : Nat → Nat) (v : Nat),
      setAt (shifted (GRAPHWIDTH - s.iterations)
        (GRAPHWIDTH - 1 - (GRAPHWIDTH - s.iterations)) a) (GRAPHWIDTH - 1) v
        = ticked s.iterations a v := by
    intro a v
    funext j
    simp only [setAt, shifted, ticked]
    by_cases h1 : j = GRAPHWIDTH - 1
    · simp [h1]
    · simp only [h1, if_false]
      have : (GRAPHWIDTH - s.iterations ≤ j ∧
          j < GRAPHWIDTH - s.iterations + (GRAPHWIDTH - 1 - (GRAPHWIDTH - s.iterations)))
          ↔ (GRAPHWIDTH - s.iterations ≤ j ∧ j < GRAPHWIDTH - 1) := by
        unfold GRAPHWIDTH at *
        omega
      simp only [this]
  obtain ⟨h1, h2, h3, h4, _, _⟩ := foldl_shiftStep_arrays
    (GRAPHWIDTH - 1 - (GRAPHWIDTH - s.iterations)) (GRAPHWIDTH - s.iterations)
    (seedRange { s with time := now })
  simp only [sampleTick, appendReading, shiftLoop, loopIndices, hfi]
  refine ⟨?_, ?_, ?_, ?_⟩
  · rw [h1]; exact key _ _
  · rw [h2]; exact key _ _
  · rw [h3]; exact key _ _
  · rw [h4]; exact key _ _

theorem shiftLoop_iterations (s : GraphState) : (shiftLoop s).iterations = s.iterations :=
  (foldl_shiftStep_arrays _ _ s).2.2.2.2.1

theorem shiftLoop_time (s : GraphState) : (shiftLoop s).time = s.time :=
  (foldl_shiftStep_arrays _ _ s).2.2.2.2.2

theorem sampleTick_iterations (now : Nat) (r : Reading) (s : GraphState) :
    (sampleTick now r s).iterations
      = if s.iterations ≥ GRAPHWIDTH then GRAPHWIDTH else s.iterations + 1 := by
  simp only [sampleTick, appendReading, shiftLoop_iterations]
  rfl

theorem sampleTick_time (now : Nat) (r : Reading) (s : GraphState) :
    (sampleTick now r s).time = now := by
  simp only [sampleTick, appendReading, shiftLoop_time]
  rfl

theorem sampleTick_last (now : Nat) (r : Reading) (s : GraphState) :
    (sampleTick now r s).bedTemp (GRAPHWIDTH - 1) = r.degBed ∧
    (sampleTick now r s).bedTargetTemp (GRAPHWIDTH - 1) = r.degTargetBed ∧
    (sampleTick now r s).hotendTemp (GRAPHWIDTH - 1) = r.degHotend ∧
    (sampleTick now r s).hotendTargetTemp (GRAPHWIDTH - 1) = r.degTargetHotend := by
  simp [sampleTick, appendReading, setAt]

theorem seedRange_ordered (s : GraphState) : RangeOrdered (seedRange s) := by
  unfold RangeOrdered seedRange
  constructor <;> dsimp only <;> split_ifs <;> omega

theorem shiftStep_ordered (i : Nat) (s : GraphState) (h : RangeOrdered s) :
    RangeOrdered (shiftStep i s) := by
  unfold RangeOrdered at *
  obtain ⟨h1, h2⟩ := h
  unfold shiftStep
  constructor <;> dsimp only <;> split_ifs <;> omega

theorem foldl_shiftStep_ordered (l : List Nat) : ∀ s : GraphState, RangeOrdered s →
    RangeOrdered (l.foldl (fun st i => shiftStep i st) s) := by
  induction l with
  | nil => intro s h; exact h
  | cons i rest ih => intro s h; exact ih _ (shiftStep_ordered i s h)

theorem sampleTick_ordered (now : Nat) (r : Reading) (s : GraphState) :
    RangeOrdered (sampleTick now r s) := by
  have h := foldl_shiftStep_ordered
    (loopIndices (firstIndex (seedRange { s with time := now }).iterations) (GRAPHWIDTH - 1))
    _ (seedRange_ordered { s with time := now })
  exact h

theorem updateGraph_ordered (now : Nat) (r : Reading) (s : GraphState) (h : RangeOrdered s) :
    RangeOrdered (updateGraph now r s) := by
  unfold updateGraph
  split_ifs
  · exact sampleTick_ordered now r s
  · exact h

theorem updateCalls_ordered (calls : List (Nat × Reading)) : ∀ s : GraphState,
    RangeOrdered s → RangeOrdered (updateCalls calls s) := by
  induction calls with
  | nil => intro s h; exact h
  | cons c rest ih => intro s h; exact ih _ (updateGraph_ordered c.1 c.2 s h)

theorem elapsedTicks_append (ticks : List (Nat × Reading)) (t : Nat × Reading)
    (s : GraphState) :
    elapsedTicks (ticks ++ [t]) s = sampleTick t.1 t.2 (elapsedTicks ticks s) := by
  simp [elapsedTicks, List.foldl_append]

theorem elapsedTicks_iterations (ticks : List (Nat × Reading)) :
    (elapsedTicks ticks GraphState.init).iterations = min ticks.length GRAPHWIDTH := by
  induction ticks using List.reverseRecOn with
  | nil => rfl
  | append_singleton l t ih =>
    rw [elapsedTicks_append, sampleTick_iterations, ih]
    simp only [List.length_append, List.length_singleton]
    unfold GRAPHWIDTH
    split_ifs <;> omega

theorem putUnhomed_eq_map (value : List Int) (h : ∀ c ∈ value, c ≠ 0) :
    putUnhomed value = value.map placeholderChar := by
  induction value with
  | nil => rfl
  | cons c rest ih =>
    have hc : c ≠ 0 := h c (List.mem_cons_self c rest)
    have hrest : ∀ d ∈ rest, d ≠ 0 := fun d hd => h d (List.mem_cons_of_mem c hd)
    simp [putUnhomed, hc, ih hrest, placeholderChar]

theorem graphOffset_eq_ediv (value min max : Int) (h1 : min ≤ value) (h2 : value ≤ max) :
    graphOffset value min max = (value - min + 1) * 21 / (max - min + 2) := by
  unfold graphOffset
  exact Int.tdiv_eq_ediv (by nlinarith) (by omega)

theorem zBarLoop_rows (bound : ℚ) (hb : 0 ≤ bound) : ∀ (fuel i : Nat), i < fuel → i < 65536 →
    zBarLoop bound fuel i = some ((List.range (i - ⌊bound⌋₊)).map (fun k => i - k)) := by
  intro fuel
  induction fuel with
  | zero => intro i hi; omega
  | succ n ih =>
    intro i hi h16
    unfold zBarLoop
    by_cases hgt : (i : ℚ) > bound
    · have hfl : ⌊bound⌋₊ < i := (Nat.floor_lt hb).mpr hgt
      have hdec : dec16 i = i - 1 := by unfold dec16; omega
      have hn : i - ⌊bound⌋₊ = (i - 1 - ⌊bound⌋₊) + 1 := by omega
      have hmap : ∀ m : Nat, (List.range (m + 1)).map (fun k => i - k)
          = i :: (List.range m).map (fun k => i - 1 - k) := by
        intro m
        rw [List.range_succ_eq_map, List.map_cons, List.map_map, Nat.sub_zero]
        refine congrArg (List.cons i) (List.map_congr_left ?_)
        intro k _
        show i - (k + 1) = i - 1 - k
        omega
      rw [if_pos hgt, hdec, ih (i - 1) (by omega) (by omega), hn, hmap]
      rfl
    · have hle : i ≤ ⌊bound⌋₊ := Nat.le_floor (not_lt.mp hgt)
      have hn : i - ⌊bound⌋₊ = 0 := by omega
      rw [if_neg hgt, hn]
      rfl

theorem lcd_put_u8str_eq (value : List Int) (h : ∀ c ∈ value, c ≠ 0) :
    lcd_put_u8str value = value := by
  induction value with
  | nil => rfl
  | cons c rest ih =>
    have hc : c ≠ 0 := h c (List.mem_cons_self c rest)
    have hrest : ∀ d ∈ rest, d ≠ 0 := fun d hd => h d (List.mem_cons_of_mem c hd)
    simp [lcd_put_u8str, hc, ih hrest]

theorem updateGraph_iterations_le (now : Nat) (r : Reading) (s : GraphState)
    (h : s.iterations ≤ GRAPHWIDTH) : (updateGraph now r s).iterations ≤ GRAPHWIDTH := by
  unfold updateGraph
  split_ifs
  · rw [sampleTick_iterations]
    split_ifs <;> omega
  · exact h

theorem updateCalls_iterations_le (calls : List (Nat × Reading)) : ∀ s : GraphState,
    s.iterations ≤ GRAPHWIDTH → (updateCalls calls s).iterations ≤ GRAPHWIDTH := by
  induction calls with
  | nil => intro s h; exact h
  | cons c rest ih => intro s h; exact ih _ (updateGraph_iterations_le c.1 c.2 s h)

theorem zBarLoop_below_zero (bound : ℚ) (hb : bound < 0) : ∀ (fuel i : Nat),
    zBarLoop bound fuel i = none := by
  intro fuel
  induction fuel with
  | zero => intro i; rfl
  | succ n ih =>
    intro i
    have hi : (i : ℚ) > bound := lt_of_lt_of_le hb (Nat.cast_nonneg i)
    unfold zBarLoop
    rw [if_pos hi, ih]
    rfl

theorem truncate_of_nonneg (q : ℚ) (h : 0 ≤ q) : truncate q = ⌊q⌋ := by
  unfold truncate
  rw [if_pos h]

theorem mem_loopIndices (first bound i : Nat) :
    i ∈ loopIndices first bound ↔ first ≤ i ∧ i < bound := by
  unfold loopIndices
  rw [List.mem_range'_1]
  omega

theorem plotGraph_eq (s : GraphState) (hk : s.iterations ≤ GRAPHWIDTH) :
    plotGraph s
      = (List.range' (GRAPHWIDTH - s.iterations) s.iterations).flatMap (plotStep s) := by
  unfold plotGraph loopIndices
  rw [firstIndex_of_le _ hk]
  have h : GRAPHWIDTH - (GRAPHWIDTH - s.iterations) = s.iterations := by omega
  rw [h]

theorem length_flatMap_plotStep (s : GraphState) (l : List Nat) :
    (l.flatMap (plotStep s)).length = 4 * l.length := by
  induction l with
  | nil => rfl
  | cons i rest ih =>
    rw [List.flatMap_cons, List.length_append, ih, List.length_cons]
    simp only [plotStep, List.length_cons, List.length_nil]
    omega

theorem hotendChannel_shiftStep (i : Nat) (s : GraphState) :
    hotendChannel (shiftStep i s) = channelStep i (hotendChannel s) := by
  simp [hotendChannel, shiftStep, channelStep, setAt]

theorem bedChannel_shiftStep (i : Nat) (s : GraphState) :
    bedChannel (shiftStep i s) = channelStep i (bedChannel s) := by
  simp [bedChannel, shiftStep, channelStep, setAt]

theorem channel_foldl_shiftStep (l : List Nat) : ∀ s : GraphState,
    hotendChannel (l.foldl (fun st i => shiftStep i st) s)
      = l.foldl (fun c i => channelStep i c) (hotendChannel s) ∧
    bedChannel (l.foldl (fun st i => shiftStep i st) s)
      = l.foldl (fun c i => channelStep i c) (bedChannel s) := by
  induction l with
  | nil => intro s; exact ⟨rfl, rfl⟩
  | cons i rest ih =>
    intro s
    simp only [List.foldl_cons]
    rw [(ih (shiftStep i s)).1, (ih (shiftStep i s)).2, hotendChannel_shiftStep,
      bedChannel_shiftStep]
    exact ⟨rfl, rfl⟩

/-- The range of a family after the shift loop over `first, ..., first + n - 1`:
`lo` is a lower bound of the old `lo` and of the old slots `j + 1`, and is one
of them; `hi` likewise from above. -/
theorem channel_foldl_range (n : Nat) : ∀ (first : Nat) (c : Channel),
    (((List.range' first n).foldl (fun c i => channelStep i c) c).lo ≤ c.lo ∧
      ∀ j, first ≤ j → j < first + n →
        ((List.range' first n).foldl (fun c i => channelStep i c) c).lo ≤ c.actual (j + 1) ∧
        ((List.range' first n).foldl (fun c i => channelStep i c) c).lo ≤ c.target (j + 1)) ∧
    (((List.range' first n).foldl (fun c i => channelStep i c) c).lo = c.lo ∨
      ∃ j, first ≤ j ∧ j < first + n ∧
        (((List.range' first n).foldl (fun c i => channelStep i c) c).lo = c.actual (j + 1) ∨
         ((List.range' first n).foldl (fun c i => channelStep i c) c).lo = c.target (j + 1))) ∧
    (c.hi ≤ ((List.range' first n).foldl (fun c i => channelStep i c) c).hi ∧
      ∀ j, first ≤ j → j < first + n →
        c.actual (j + 1) ≤ ((List.range' first n).foldl (fun c i => channelStep i c) c).hi ∧
        c.target (j + 1) ≤ ((List.range' first n).foldl (fun c i => channelStep i c) c).hi) ∧
    (((List.range' first n).foldl (fun c i => channelStep i c) c).hi = c.hi ∨
      ∃ j, first ≤ j ∧ j < first + n ∧
        (((List.range' first n).foldl (fun c i => channelStep i c) c).hi = c.actual (j + 1) ∨
         ((List.range' first n).foldl (fun c i => channelStep i c) c).hi = c.target (j + 1))) := by
  induction n with
  | zero =>
    intro first c
    refine ⟨⟨le_refl _, ?_⟩, Or.inl rfl, ⟨le_refl _, ?_⟩, Or.inl rfl⟩ <;>
      (intro j h1 h2; omega)
  | succ m ih =>
    intro first c
    simp only [List.range', List.foldl_cons]
    obtain ⟨⟨hlo, hloj⟩, hloat, ⟨hhi, hhij⟩, hhiat⟩ := ih (first + 1) (channelStep first c)
    generalize ((List.range' (first + 1) m).foldl (fun c i => channelStep i c)
      (channelStep first c)) = f at hlo hloj hloat hhi hhij hhiat ⊢
    have ha : ∀ j, first + 1 ≤ j → (channelStep first c).actual (j + 1) = c.actual (j + 1) := by
      intro j hj
      have hne : j + 1 ≠ first := by omega
      simp [channelStep, setAt, hne]
    have ht : ∀ j, first + 1 ≤ j → (channelStep first c).target (j + 1) = c.target (j + 1) := by
      intro j hj
      have hne : j + 1 ≠ first := by omega
      simp [channelStep, setAt, hne]
    have hlo1 : (channelStep first c).lo ≤ c.lo ∧
        (channelStep first c).lo ≤ c.actual (first + 1) ∧
        (channelStep first c).lo ≤ c.target (first + 1) ∧
        ((channelStep first c).lo = c.lo ∨ (channelStep first c).lo = c.actual (first + 1) ∨
          (channelStep first c).lo = c.target (first + 1)) := by
      simp only [channelStep]
      split_ifs <;> omega
    have hhi1 : c.hi ≤ (channelStep first c).hi ∧
        c.actual (first + 1) ≤ (channelStep first c).hi ∧
        c.target (first + 1) ≤ (channelStep first c).hi ∧
        ((channelStep first c).hi = c.hi ∨ (channelStep first c).hi = c.actual (first + 1) ∨
          (channelStep first c).hi = c.target (first + 1)) := by
      simp only [channelStep]
      split_ifs <;> omega
    refine ⟨⟨by omega, ?_⟩, ?_, ⟨by omega, ?_⟩, ?_⟩
    · intro j h1 h2
      by_cases hj : j = first
      · subst hj
        omega
      · have h3 := hloj j (by omega) (by omega)
        rw [ha j (by omega), ht j (by omega)] at h3
        exact h3
    · rcases hloat with h | ⟨j, h1, h2, h3⟩
      · rcases hlo1.2.2.2 with h4 | h4 | h4
        · exact Or.inl (h.trans h4)
        · exact Or.inr ⟨first, le_refl _, by omega, Or.inl (h.trans h4)⟩
        · exact Or.inr ⟨first, le_refl _, by omega, Or.inr (h.trans h4)⟩
      · rw [ha j h1, ht j h1] at h3
        exact Or.inr ⟨j, by omega, by omega, h3⟩
    · intro j h1 h2
      by_cases hj : j = first
      · subst hj
        omega
      · have h3 := hhij j (by omega) (by omega)
        rw [ha j (by omega), ht j (by omega)] at h3
        exact h3
    · rcases hhiat with h | ⟨j, h1, h2, h3⟩
      · rcases hhi1.2.2.2 with h4 | h4 | h4
        · exact Or.inl (h.trans h4)
        · exact Or.inr ⟨first, le_refl _, by omega, Or.inl (h.trans h4)⟩
        · exact Or.inr ⟨first, le_refl _, by omega, Or.inr (h.trans h4)⟩
      · rw [ha j h1, ht j h1] at h3
        exact Or.inr ⟨j, by omega, by omega, h3⟩

theorem mem_rangeValues (k v : Nat) (a t : Nat → Nat) :
    v ∈ rangeValues k a t ↔
      ∃ j, (j = 0 ∨ (GRAPHWIDTH - k + 1 ≤ j ∧ j < GRAPHWIDTH - k + 1 + (k - 1))) ∧
        (v = a j ∨ v = t j) := by
  unfold rangeValues rangeSlots
  rw [List.mem_flatMap]
  constructor
  · rintro ⟨j, hj, hv⟩
    rw [List.mem_cons, List.mem_range'_1] at hj
    simp only [List.mem_cons, List.mem_singleton, List.mem_nil_iff, or_false] at hv
    exact ⟨j, hj, hv⟩
  · rintro ⟨j, hj, hv⟩
    refine ⟨j, ?_, ?_⟩
    · rw [List.mem_cons, List.mem_range'_1]
      exact hj
    · simp only [List.mem_cons, List.mem_singleton, List.mem_nil_iff, or_false]
      exact hv

theorem sampleTick_channels (now : Nat) (r : Reading) (s : GraphState) :
    (sampleTick now r s).hotendMinTemp
      = (tickChannel s.iterations s.hotendTemp s.hotendTargetTemp).lo ∧
    (sampleTick now r s).hotendMaxTemp
      = (tickChannel s.iterations s.hotendTemp s.hotendTargetTemp).hi ∧
    (sampleTick now r s).bedMinTemp
      = (tickChannel s.iterations s.bedTemp s.bedTargetTemp).lo ∧
    (sampleTick now r s).bedMaxTemp
      = (tickChannel s.iterations s.bedTemp s.bedTargetTemp).hi := by
  obtain ⟨hh, hb⟩ := channel_foldl_shiftStep
    (loopIndices (firstIndex s.iterations) (GRAPHWIDTH - 1)) (seedRange { s with time := now })
  have hh1 : hotendChannel (shiftLoop (seedRange { s with time := now }))
      = tickChannel s.iterations s.hotendTemp s.hotendTargetTemp := hh
  have hb1 : bedChannel (shiftLoop (seedRange { s with time := now }))
      = tickChannel s.iterations s.bedTemp s.bedTargetTemp := hb
  refine ⟨?_, ?_, ?_, ?_⟩
  · exact congrArg Channel.lo hh1
  · exact congrArg Channel.hi hh1
  · exact congrArg Channel.lo hb1
  · exact congrArg Channel.hi hb1

theorem tickChannel_range (k : Nat) (hk : k ≤ GRAPHWIDTH) (a t : Nat → Nat) :
    ((tickChannel k a t).lo ∈ rangeValues k a t ∧
      ∀ v ∈ rangeValues k a t, (tickChannel k a t).lo ≤ v) ∧
    ((tickChannel k a t).hi ∈ rangeValues k a t ∧
      ∀ v ∈ rangeValues k a t, v ≤ (tickChannel k a t).hi) := by
  have hn : GRAPHWIDTH - 1 - (GRAPHWIDTH - k) = k - 1 := by omega
  have hfold := channel_foldl_range (k - 1) (GRAPHWIDTH - k)
    ⟨a, t, if a 0 < t 0 then a 0 else t 0, if a 0 > t 0 then a 0 else t 0⟩
  have hdef : tickChannel k a t
      = (List.range' (GRAPHWIDTH - k) (k - 1)).foldl (fun c i => channelStep i c)
        ⟨a, t, if a 0 < t 0 then a 0 else t 0, if a 0 > t 0 then a 0 else t 0⟩ := by
    unfold tickChannel loopIndices
    rw [firstIndex_of_le k hk, hn]
  rw [← hdef] at hfold
  obtain ⟨⟨hlo, hloj⟩, hloat, ⟨hhi, hhij⟩, hhiat⟩ := hfold
  simp only at hlo hloj hloat hhi hhij hhiat
  have hseedlo : (if a 0 < t 0 then a 0 else t 0) ≤ a 0 ∧ (if a 0 < t 0 then a 0 else t 0) ≤ t 0 ∧
      ((if a 0 < t 0 then a 0 else t 0) = a 0 ∨ (if a 0 < t 0 then a 0 else t 0) = t 0) := by
    split_ifs <;> omega
  have hseedhi : a 0 ≤ (if a 0 > t 0 then a 0 else t 0) ∧ t 0 ≤ (if a 0 > t 0 then a 0 else t 0) ∧
      ((if a 0 > t 0 then a 0 else t 0) = a 0 ∨ (if a 0 > t 0 then a 0 else t 0) = t 0) := by
    split_ifs <;> omega
  refine ⟨⟨?_, ?_⟩, ⟨?_, ?_⟩⟩
  · rw [mem_rangeValues]
    rcases hloat with h | ⟨j, h1, h2, h3⟩
    · rcases hseedlo.2.2 with h4 | h4
      · exact ⟨0, Or.inl rfl, Or.inl (h.trans h4)⟩
      · exact ⟨0, Or.inl rfl, Or.inr (h.trans h4)⟩
    · exact ⟨j + 1, Or.inr ⟨by omega, by omega⟩, h3⟩
  · intro v hv
    rw [mem_rangeValues] at hv
    obtain ⟨j, hj, hvj⟩ := hv
    rcases hj with h0 | ⟨h1, h2⟩
    · subst h0
      rcases hvj with h | h <;> omega
    · have h3 := hloj (j - 1) (by omega) (by omega)
      have h4 : j - 1 + 1 = j := by omega
      rw [h4] at h3
      rcases hvj with h | h <;> omega
  · rw [mem_rangeValues]
    rcases hhiat with h | ⟨j, h1, h2, h3⟩
    · rcases hseedhi.2.2 with h4 | h4
      · exact ⟨0, Or.inl rfl, Or.inl (h.trans h4)⟩
      · exact ⟨0, Or.inl rfl, Or.inr (h.trans h4)⟩
    · exact ⟨j + 1, Or.inr ⟨by omega, by omega⟩, h3⟩
  · intro v hv
    rw [mem_rangeValues] at hv
    obtain ⟨j, hj, hvj⟩ := hv
    rcases hj with h0 | ⟨h1, h2⟩
    · subst h0
      rcases hvj with h | h <;> omega
    · have h3 := hhij (j - 1) (by omega) (by omega)
      have h4 : j - 1 + 1 = j := by omega
      rw [h4] at h3
      rcases hvj with h | h <;> omega

theorem truncateReal_eq (x : ℝ) (n : Int) (h0 : 0 ≤ n) (h1 : (n : ℝ) ≤ x)
    (h2 : x < (n : ℝ) + 1) : truncateReal x = n := by
  have hx : 0 ≤ x := le_trans (by exact_mod_cast h0) h1
  unfold truncateReal
  rw [if_pos hx, Int.floor_eq_iff]
  exact ⟨h1, h2⟩

theorem cos_small_gt (y : ℝ) (h0 : 0 ≤ y) (h1 : y ≤ 1 / 10) : 14 / 15 < Real.cos y := by
  have h := Real.one_sub_sq_div_two_le_cos (x := y)
  nlinarith

theorem needleX_zero_bounds : 38 ≤ needleX 0 ∧ needleX 0 < 39 := by
  have harg : (((0 : Nat) : ℝ) * PI - PI) / 100 = -(PI / 100) := by
    push_cast
    ring
  have hc1 : Real.cos (PI / 100) ≤ 1 := Real.cos_le_one _
  have hc2 : 14 / 15 < Real.cos (PI / 100) :=
    cos_small_gt _ (by unfold PI; norm_num) (by unfold PI; norm_num)
  unfold needleX
  rw [harg, Real.cos_neg]
  constructor <;> linarith

theorem needleY_zero_eq : needleY 0 = 63 := by
  unfold needleY
  simp

theorem needleX_hundred_bounds : 67 ≤ needleX 100 ∧ needleX 100 < 68 := by
  have hpi1 := Real.pi_gt_d6
  have hpi2 := Real.pi_lt_d6
  have harg : (((100 : Nat) : ℝ) * PI - PI) / 100 = Real.pi - (Real.pi - 99 / 100 * PI) := by
    push_cast
    ring
  have hy0 : 0 < Real.pi - 99 / 100 * PI := by unfold PI; linarith
  have hy1 : Real.pi - 99 / 100 * PI ≤ 1 / 10 := by unfold PI; linarith
  have hc1 : Real.cos (Real.pi - 99 / 100 * PI) < 1 := by
    have h := Real.cos_lt_cos_of_nonneg_of_le_pi_div_two (le_refl (0 : ℝ))
      (by linarith : Real.pi - 99 / 100 * PI ≤ Real.pi / 2) hy0
    rwa [Real.cos_zero] at h
  have hc2 : 14 / 15 < Real.cos (Real.pi - 99 / 100 * PI) :=
    cos_small_gt _ (le_of_lt hy0) hy1
  unfold needleX
  rw [harg, Real.cos_pi_sub]
  constructor <;> linarith

theorem needleY_hundred_bounds : 62 ≤ needleY 100 ∧ needleY 100 < 63 := by
  have hpi1 := Real.pi_gt_d6
  have hpi2 := Real.pi_lt_d6
  have harg : ((100 : Nat) : ℝ) * PI / 100 = PI := by
    push_cast
    ring
  have hP0 : 0 < PI := by unfold PI; norm_num
  have hP1 : PI < Real.pi := by unfold PI; linarith
  have hs0 : 0 < Real.sin PI := Real.sin_pos_of_pos_of_lt_pi hP0 hP1
  have hs1 : Real.sin PI < 1 / 15 := by
    have h := Real.sin_lt (sub_pos.mpr hP1)
    rw [Real.sin_pi_sub] at h
    have h2 : Real.pi - PI < 1 / 15 := by unfold PI; linarith
    linarith
  unfold needleY
  rw [harg]
  constructor <;> linarith

/-! ## Lemmas on rounding -/

theorem rnd_le_int (R : Rounding) (q : ℚ) (n : Int) (hn : |n| ≤ 2 ^ 24) (h : q ≤ (n : ℚ)) :
    R.rnd q ≤ (n : ℚ) := by
  have h1 := R.mono q n h
  rwa [R.exact n hn] at h1

theorem int_le_rnd (R : Rounding) (q : ℚ) (n : Int) (hn : |n| ≤ 2 ^ 24) (h : (n : ℚ) ≤ q) :
    (n : ℚ) ≤ R.rnd q := by
  have h1 := R.mono n q h
  rwa [R.exact n hn] at h1

theorem rnd_int (R : Rounding) (n : Int) (hn : |n| ≤ 2 ^ 24) : R.rnd (n : ℚ) = (n : ℚ) :=
  R.exact n hn

theorem rnd_nonneg (R : Rounding) (q : ℚ) (h : 0 ≤ q) : 0 ≤ R.rnd q := by
  have h1 := int_le_rnd R q 0 (by norm_num) (by simpa using h)
  simpa using h1

theorem rnd_near (R : Rounding) (q : ℚ) (h : 0 ≤ q) :
    q - q / 2 ^ 24 ≤ R.rnd q ∧ R.rnd q ≤ q + q / 2 ^ 24 := by
  have h1 := R.relErr q
  rw [abs_of_nonneg h, abs_le] at h1
  constructor <;> linarith [h1.1, h1.2]

/-- The rounded quotient `v * 36 / vMax` of lines 374 and 381 for
`0 ≤ v ≤ vMax`: not negative and within `1 / 1000` of the exact quotient. -/
theorem scaled_near (R : Rounding) (v vMax : ℚ) (h0 : 0 ≤ v) (h1 : v ≤ vMax)
    (hpos : 0 < vMax) :
    0 ≤ R.rnd (R.rnd (v * 36) / vMax) ∧
    v * 36 / vMax - 1 / 1000 ≤ R.rnd (R.rnd (v * 36) / vMax) ∧
    R.rnd (R.rnd (v * 36) / vMax) ≤ v * 36 / vMax + 1 / 1000 := by
  have hp0 : 0 ≤ v * 36 := by positivity
  have ht0 : 0 ≤ v * 36 / vMax := by positivity
  have ht1 : v * 36 / vMax ≤ 36 := by
    rw [div_le_iff₀ hpos]
    nlinarith
  obtain ⟨ha, hb⟩ := rnd_near R (v * 36) hp0
  have hq0 : 0 ≤ R.rnd (v * 36) / vMax := div_nonneg (rnd_nonneg R _ hp0) (le_of_lt hpos)
  have hqlo : v * 36 / vMax - v * 36 / vMax / 2 ^ 24 ≤ R.rnd (v * 36) / vMax := by
    have h := div_le_div_of_nonneg_right ha (le_of_lt hpos)
    have e : (v * 36 - v * 36 / 2 ^ 24) / vMax = v * 36 / vMax - v * 36 / vMax / 2 ^ 24 := by
      field_simp
      ring
    rwa [e] at h
  have hqhi : R.rnd (v * 36) / vMax ≤ v * 36 / vMax + v * 36 / vMax / 2 ^ 24 := by
    have h := div_le_div_of_nonneg_right hb (le_of_lt hpos)
    have e : (v * 36 + v * 36 / 2 ^ 24) / vMax = v * 36 / vMax + v * 36 / vMax / 2 ^ 24 := by
      field_simp
      ring
    rwa [e] at h
  obtain ⟨hc, hd⟩ := rnd_near R (R.rnd (v * 36) / vMax) hq0
  refine ⟨rnd_nonneg R _ hq0, ?_, ?_⟩
  · have hs : v * 36 / vMax / 2 ^ 24 ≤ 36 / 2 ^ 24 :=
      div_le_div_of_nonneg_right ht1 (by positivity)
    have hq37 : R.rnd (v * 36) / vMax ≤ 37 := by
      have : (36 : ℚ) / 2 ^ 24 ≤ 1 := by norm_num
      linarith
    have hs2 : R.rnd (v * 36) / vMax / 2 ^ 24 ≤ 37 / 2 ^ 24 :=
      div_le_div_of_nonneg_right hq37 (by positivity)
    have hnum : (36 : ℚ) / 2 ^ 24 + 37 / 2 ^ 24 ≤ 1 / 1000 := by norm_num
    linarith
  · have hs : v * 36 / vMax / 2 ^ 24 ≤ 36 / 2 ^ 24 :=
      div_le_div_of_nonneg_right ht1 (by positivity)
    have hq37 : R.rnd (v * 36) / vMax ≤ 37 := by
      have : (36 : ℚ) / 2 ^ 24 ≤ 1 := by norm_num
      linarith
    have hs2 : R.rnd (v * 36) / vMax / 2 ^ 24 ≤ 37 / 2 ^ 24 :=
      div_le_div_of_nonneg_right hq37 (by positivity)
    have hnum : (36 : ℚ) / 2 ^ 24 + 37 / 2 ^ 24 ≤ 1 / 1000 := by norm_num
    linarith

/-- The rounded quotient is monotone in `v`. -/
theorem scaled_mono (R : Rounding) (v w vMax : ℚ) (h : v ≤ w) (hpos : 0 < vMax) :
    R.rnd (R.rnd (v * 36) / vMax) ≤ R.rnd (R.rnd (w * 36) / vMax) := by
  apply R.mono
  apply div_le_div_of_nonneg_right _ (le_of_lt hpos)
  apply R.mono
  linarith

/-- The bound of the Z bar loop for `0 ≤ z ≤ zMax`: between `25` and `62` and
within `1 / 100` of the exact value `62 - z * 36 / zMax`. -/
theorem zBarBound_near (R : Rounding) (z zMax : ℚ) (h0 : 0 ≤ z) (h1 : z ≤ zMax)
    (hpos : 0 < zMax) :
    25 ≤ zBarBound R z zMax ∧ zBarBound R z zMax ≤ 62 ∧
    62 - z * 36 / zMax - 1 / 100 ≤ zBarBound R z zMax ∧
    zBarBound R z zMax ≤ 62 - z * 36 / zMax + 1 / 100 := by
  obtain ⟨hq0, hqlo, hqhi⟩ := scaled_near R z zMax h0 h1 hpos
  have ht1 : z * 36 / zMax ≤ 36 := by
    rw [div_le_iff₀ hpos]
    nlinarith
  have hb0 : 0 ≤ 62 - R.rnd (R.rnd (z * 36) / zMax) := by linarith
  obtain ⟨hc, hd⟩ := rnd_near R _ hb0
  have hs : (62 - R.rnd (R.rnd (z * 36) / zMax)) / 2 ^ 24 ≤ 62 / 2 ^ 24 :=
    div_le_div_of_nonneg_right (by linarith) (by positivity)
  have hnum : (62 : ℚ) / 2 ^ 24 ≤ 1 / 1000 := by norm_num
  have h62 : zBarBound R z zMax ≤ 62 := by
    have h := rnd_le_int R (62 - R.rnd (R.rnd (z * 36) / zMax)) 62 (by norm_num)
      (by push_cast; linarith)
    simpa [zBarBound] using h
  unfold zBarBound at *
  refine ⟨?_, h62, ?_, ?_⟩ <;> linarith

theorem zBarBound_antitone (R : Rounding) (z1 z2 zMax : ℚ) (h : z1 ≤ z2) (hpos : 0 < zMax) :
    zBarBound R z2 zMax ≤ zBarBound R z1 zMax := by
  unfold zBarBound
  apply R.mono
  have := scaled_mono R z1 z2 zMax h hpos
  linarith

theorem zBarBound_zero (R : Rounding) (zMax : ℚ) : zBarBound R 0 zMax = 62 := by
  have h0 : R.rnd 0 = 0 := by simpa using rnd_int R 0 (by norm_num)
  have h62 : R.rnd 62 = 62 := by simpa using rnd_int R 62 (by norm_num)
  unfold zBarBound
  rw [zero_mul, h0, zero_div, h0, sub_zero, h62]

theorem zBarRows_in_range (R : Rounding) (fuel : Nat) (z zMax : ℚ) (h0 : 0 ≤ z)
    (h1 : z ≤ zMax) (hpos : 0 < zMax) (hfuel : 64 ≤ fuel) :
    zBarRows R fuel z zMax
      = some ((List.range (63 - ⌊zBarBound R z zMax⌋₊)).map (fun k => 63 - k)) := by
  obtain ⟨hb, _, _, _⟩ := zBarBound_near R z zMax h0 h1 hpos
  unfold zBarRows
  exact zBarLoop_rows _ (by linarith) fuel 63 (by omega) (by omega)

theorem rnd_nat (R : Rounding) (n : Nat) (hn : n ≤ 2 ^ 24) : R.rnd (n : ℚ) = (n : ℚ) := by
  have h := rnd_int R (n : Int) (by
    rw [abs_of_nonneg (Int.natCast_nonneg n)]
    exact_mod_cast hn)
  simpa using h

/-- The pixel row of line 381 is the truncated bound of the Z bar formula. -/
theorem xyPixel_snd (R : Rounding) (x y xMax yMax : ℚ) :
    (xyPixel R x y xMax yMax).2 = truncate (zBarBound R y yMax) := rfl

theorem zBarBound_of_exact_product (R : Rounding) (z zMax : ℚ) (h1 : z ≤ zMax)
    (hpos : 0 < zMax) (hrep : R.rnd (zMax * 36) = zMax * 36) :
    26 ≤ zBarBound R z zMax := by
  have hp : R.rnd (z * 36) ≤ zMax * 36 := by
    have h := R.mono (z * 36) (zMax * 36) (by linarith)
    rwa [hrep] at h
  have hq : R.rnd (z * 36) / zMax ≤ 36 := by
    rw [div_le_iff₀ hpos]
    linarith
  have hq1 : R.rnd (R.rnd (z * 36) / zMax) ≤ 36 := by
    have h := rnd_le_int R _ 36 (by norm_num) (by push_cast; exact hq)
    simpa using h
  have h := int_le_rnd R (62 - R.rnd (R.rnd (z * 36) / zMax)) 26 (by norm_num)
    (by push_cast; linarith)
  simpa [zBarBound] using h

/-! ## Theorems -/

/-- C1 (start-up fill), evaluated on the code: after two elapsed ticks from
the zero-initialised state the refresh counter is `2`, yet slot
`GRAPHWIDTH - 2 = 44` of every series still holds the initial `0`, not the
first reading; only the second reading is stored, in slot `45`. -/
theorem startup_second_tick_drops_first (t1 t2 : Nat × Reading) :
    (elapsedTicks [t1, t2] GraphState.init).iterations = 2 ∧
    (elapsedTicks [t1, t2] GraphState.init).hotendTemp 44 = 0 ∧
    (elapsedTicks [t1, t2] GraphState.init).hotendTargetTemp 44 = 0 ∧
    (elapsedTicks [t1, t2] GraphState.init).bedTemp 44 = 0 ∧
    (elapsedTicks [t1, t2] GraphState.init).bedTargetTemp 44 = 0 ∧
    (elapsedTicks [t1, t2] GraphState.init).hotendTemp 45 = t2.2.degHotend ∧
    (elapsedTicks [t1, t2] GraphState.init).hotendTargetTemp 45 = t2.2.degTargetHotend ∧
    (elapsedTicks [t1, t2] GraphState.init).bedTemp 45 = t2.2.degBed ∧
    (elapsedTicks [t1, t2] GraphState.init).bedTargetTemp 45 = t2.2.degTargetBed := by
  simp [elapsedTicks, sampleTick, appendReading, shiftLoop, seedRange, loopIndices, firstIndex,
    GraphState.init, GRAPHWIDTH, setAt, List.range']

/-- C2 (fill counter): after any run of elapsed ticks from the
zero-initialised state the refresh counter is `min n GRAPHWIDTH`, it is at most
`GRAPHWIDTH`, a further tick never decreases it, and after that tick slot
`GRAPHWIDTH - 1` of each of the four series holds the reading of that tick. -/
theorem fill_counter_and_latest_slot (ticks : List (Nat × Reading)) (t : Nat × Reading) :
    (elapsedTicks ticks GraphState.init).iterations = min ticks.length GRAPHWIDTH ∧
    (elapsedTicks ticks GraphState.init).iterations ≤ GRAPHWIDTH ∧
    (elapsedTicks ticks GraphState.init).iterations
      ≤ (elapsedTicks (ticks ++ [t]) GraphState.init).iterations ∧
    (elapsedTicks (ticks ++ [t]) GraphState.init).iterations
      = min (ticks.length + 1) GRAPHWIDTH ∧
    (elapsedTicks (ticks ++ [t]) GraphState.init).bedTemp (GRAPHWIDTH - 1) = t.2.degBed ∧
    (elapsedTicks (ticks ++ [t]) GraphState.init).bedTargetTemp (GRAPHWIDTH - 1)
      = t.2.degTargetBed ∧
    (elapsedTicks (ticks ++ [t]) GraphState.init).hotendTemp (GRAPHWIDTH - 1)
      = t.2.degHotend ∧
    (elapsedTicks (ticks ++ [t]) GraphState.init).hotendTargetTemp (GRAPHWIDTH - 1)
      = t.2.degTargetHotend := by
  have h1 := elapsedTicks_iterations ticks
  have h2 := elapsedTicks_iterations (ticks ++ [t])
  simp only [List.length_append, List.length_singleton] at h2
  have h3 := sampleTick_last t.1 t.2 (elapsedTicks ticks GraphState.init)
  rw [← elapsedTicks_append] at h3
  refine ⟨h1, ?_, ?_, h2, h3.1, h3.2.1, h3.2.2.1, h3.2.2.2⟩
  · rw [h1]; exact Nat.min_le_right _ _
  · rw [h1, h2]; omega

/-- C3 (range containment), evaluated on the code: after one elapsed tick from
the zero-initialised state the refresh counter is `1`, the only populated slot
`45` holds the reading, and both stored ranges are `min = max = 0`, so any
non-zero reading lies above its range. -/
theorem first_tick_range_excludes_reading (now : Nat) (r : Reading) :
    (elapsedTicks [(now, r)] GraphState.init).iterations = 1 ∧
    (elapsedTicks [(now, r)] GraphState.init).hotendTemp 45 = r.degHotend ∧
    (elapsedTicks [(now, r)] GraphState.init).hotendTargetTemp 45 = r.degTargetHotend ∧
    (elapsedTicks [(now, r)] GraphState.init).bedTemp 45 = r.degBed ∧
    (elapsedTicks [(now, r)] GraphState.init).bedTargetTemp 45 = r.degTargetBed ∧
    (elapsedTicks [(now, r)] GraphState.init).hotendMinTemp = 0 ∧
    (elapsedTicks [(now, r)] GraphState.init).hotendMaxTemp = 0 ∧
    (elapsedTicks [(now, r)] GraphState.init).bedMinTemp = 0 ∧
    (elapsedTicks [(now, r)] GraphState.init).bedMaxTemp = 0 := by
  simp [elapsedTicks, sampleTick, appendReading, shiftLoop, seedRange, loopIndices, firstIndex,
    GraphState.init, GRAPHWIDTH, setAt, List.range']

set_option maxRecDepth 100000 in
/-- C4 (end-to-end scenario), evaluated on the code: after 46 elapsed ticks
with the heater at `actual = target = 200` the refresh counter is `46`, but the
stored heater range is `min = 0`, `max = 200`, slot `0` still holds the
initial `0`, and the plotted rows of the heater series differ: row `21` at slot
`0` (the first pixel drawn, column `33`), row `1` at slot `45` (pixel `180`,
column `78`). -/
theorem constant_feed_range_and_rows :
    (updateCalls constantFeed GraphState.init).iterations = 46 ∧
    (updateCalls constantFeed GraphState.init).hotendMinTemp = 0 ∧
    (updateCalls constantFeed GraphState.init).hotendMaxTemp = 200 ∧
    (updateCalls constantFeed GraphState.init).hotendTemp 0 = 0 ∧
    (updateCalls constantFeed GraphState.init).hotendTemp 45 = 200 ∧
    graphRow 21 ((updateCalls constantFeed GraphState.init).hotendTemp 0)
      (updateCalls constantFeed GraphState.init).hotendMinTemp
      (updateCalls constantFeed GraphState.init).hotendMaxTemp = 21 ∧
    graphRow 21 ((updateCalls constantFeed GraphState.init).hotendTemp 45)
      (updateCalls constantFeed GraphState.init).hotendMinTemp
      (updateCalls constantFeed GraphState.init).hotendMaxTemp = 1 ∧
    (plotGraph (updateCalls constantFeed GraphState.init))[0]? = some (33, 21) ∧
    (plotGraph (updateCalls constantFeed GraphState.init))[180]? = some (78, 1) := by
  refine ⟨by decide, by decide, by decide, by decide, by decide, by decide, by decide,
    by decide, by decide⟩

/-- C5 (non-degenerate pixel mapping): in every state reached from the
zero-initialised state by any run of calls of the gated update, both stored
ranges satisfy `min ≤ max`, so both divisors `max - min + 2` are at least `2`
and in particular not zero. -/
theorem divisor_at_least_two (calls : List (Nat × Reading)) :
    (updateCalls calls GraphState.init).hotendMinTemp
      ≤ (updateCalls calls GraphState.init).hotendMaxTemp ∧
    (updateCalls calls GraphState.init).bedMinTemp
      ≤ (updateCalls calls GraphState.init).bedMaxTemp ∧
    2 ≤ graphDivisor (updateCalls calls GraphState.init).hotendMinTemp
      (updateCalls calls GraphState.init).hotendMaxTemp ∧
    2 ≤ graphDivisor (updateCalls calls GraphState.init).bedMinTemp
      (updateCalls calls GraphState.init).bedMaxTemp ∧
    graphDivisor (updateCalls calls GraphState.init).hotendMinTemp
      (updateCalls calls GraphState.init).hotendMaxTemp ≠ 0 ∧
    graphDivisor (updateCalls calls GraphState.init).bedMinTemp
      (updateCalls calls GraphState.init).bedMaxTemp ≠ 0 := by
  have h0 : RangeOrdered GraphState.init := ⟨Nat.le_refl _, Nat.le_refl _⟩
  obtain ⟨h1, h2⟩ := updateCalls_ordered calls GraphState.init h0
  unfold graphDivisor
  refine ⟨h1, h2, ?_, ?_, ?_, ?_⟩ <;> omega

/-- C6 (unhomed placeholder): for every value string (characters without
NUL), with `blink` false and the axis not homed, the text written is the value
with each character `c` kept when `c ≤ '.'` and replaced by `'?'` otherwise;
it has the length of the value, and `"-12.50"` is written as `"-??.??"`. -/
theorem unhomed_placeholder (blanking : Bool) (axis_homed axis_known_position axis : Nat)
    (value : List Int) (hstr : ∀ c ∈ value, c ≠ 0) (hunhomed : TEST axis_homed axis = false) :
    (_draw_axis_value blanking axis_homed axis_known_position axis value false).length
      = value.length ∧
    (∀ k : Nat, (_draw_axis_value blanking axis_homed axis_known_position axis value false)[k]?
      = (value[k]?).map (fun c => if c ≤ charCode '.' then c else charCode '?')) ∧
    _draw_axis_value blanking axis_homed axis_known_position axis (codes "-12.50") false
      = codes "-??.??" := by
  have hout : _draw_axis_value blanking axis_homed axis_known_position axis value false
      = value.map placeholderChar := by
    simp [_draw_axis_value, hunhomed, putUnhomed_eq_map value hstr]
  have hex : _draw_axis_value blanking axis_homed axis_known_position axis (codes "-12.50") false
      = codes "-??.??" := by
    have hput : putUnhomed (codes "-12.50") = codes "-??.??" := by decide
    simp [_draw_axis_value, hunhomed, hput]
  refine ⟨?_, ?_, hex⟩
  · rw [hout, List.length_map]
  · intro k
    rw [hout, List.getElem?_map]
    rfl

/-- Witness of `unhomed_placeholder` at the value `"-12.50"` of the X axis with
no axis homed. -/
theorem unhomed_placeholder_witness :
    (∀ c ∈ codes "-12.50", c ≠ 0) ∧ TEST 0 0 = false ∧
    (_draw_axis_value true 0 0 0 (codes "-12.50") false).length = (codes "-12.50").length :=
  ⟨by decide, by decide, (unhomed_placeholder true 0 0 0 (codes "-12.50") (by decide) (by decide)).1⟩

/-- C7, counterexample: with `millis() - time` equal to `3000` the update is
not performed: from the zero-initialised state at `now = 3000` the state is
unchanged (`time` stays `0`, the counter stays `0`, slot `45` stays `0`). -/
theorem gate_not_at_3000 :
    elapsedMillis 3000 GraphState.init.time ≥ 3000 ∧
    (updateGraph 3000 heater200 GraphState.init).time ≠ 3000 ∧
    (updateGraph 3000 heater200 GraphState.init).iterations = 0 ∧
    (updateGraph 3000 heater200 GraphState.init).hotendTemp 45 = 0 := by
  decide

/-- C7 as amended (sampling gate): the update runs the tick body exactly when
`millis() - time > 3000` (difference modulo `2^32`): then `time = now`, slot
`GRAPHWIDTH - 1` of each series holds the reading and the counter advances
(saturating at `GRAPHWIDTH`); otherwise the whole state is unchanged. -/
theorem gate_strictly_above_3000 (now : Nat) (r : Reading) (s : GraphState) :
    (elapsedMillis now s.time > 3000 →
      updateGraph now r s = sampleTick now r s ∧
      (updateGraph now r s).time = now ∧
      (updateGraph now r s).iterations
        = (if s.iterations ≥ GRAPHWIDTH then GRAPHWIDTH else s.iterations + 1) ∧
      (updateGraph now r s).bedTemp (GRAPHWIDTH - 1) = r.degBed ∧
      (updateGraph now r s).bedTargetTemp (GRAPHWIDTH - 1) = r.degTargetBed ∧
      (updateGraph now r s).hotendTemp (GRAPHWIDTH - 1) = r.degHotend ∧
      (updateGraph now r s).hotendTargetTemp (GRAPHWIDTH - 1) = r.degTargetHotend) ∧
    (¬ elapsedMillis now s.time > 3000 → updateGraph now r s = s) := by
  constructor
  · intro h
    have hu : updateGraph now r s = sampleTick now r s := by
      unfold updateGraph
      rw [if_pos h]
    have hl := sampleTick_last now r s
    rw [hu]
    exact ⟨rfl, sampleTick_time now r s, sampleTick_iterations now r s,
      hl.1, hl.2.1, hl.2.2.1, hl.2.2.2⟩
  · intro h
    unfold updateGraph
    rw [if_neg h]

/-- Witness of `gate_strictly_above_3000`: from the zero-initialised state the
call at `now = 3001` samples and the call at `now = 3000` does not. -/
theorem gate_strictly_above_3000_witness :
    elapsedMillis 3001 GraphState.init.time > 3000 ∧
    (updateGraph 3001 heater200 GraphState.init).time = 3001 ∧
    ¬ elapsedMillis 3000 GraphState.init.time > 3000 ∧
    updateGraph 3000 heater200 GraphState.init = GraphState.init :=
  ⟨by decide,
    ((gate_strictly_above_3000 3001 heater200 GraphState.init).1 (by decide)).2.1,
    by decide,
    (gate_strictly_above_3000 3000 heater200 GraphState.init).2 (by decide)⟩

/-- C8 (sliding window in steady state): from any state whose refresh counter
is `GRAPHWIDTH`, an elapsed tick leaves the counter at `GRAPHWIDTH`, stores the
reading in slot `GRAPHWIDTH - 1` of each of the four series, and moves every
old slot `i + 1` to slot `i` for `i ≤ GRAPHWIDTH - 2`; only old slot `0` is
dropped. -/
theorem steady_state_slide (now : Nat) (r : Reading) (s : GraphState)
    (hfull : s.iterations = GRAPHWIDTH) :
    (sampleTick now r s).iterations = GRAPHWIDTH ∧
    (sampleTick now r s).bedTemp (GRAPHWIDTH - 1) = r.degBed ∧
    (sampleTick now r s).bedTargetTemp (GRAPHWIDTH - 1) = r.degTargetBed ∧
    (sampleTick now r s).hotendTemp (GRAPHWIDTH - 1) = r.degHotend ∧
    (sampleTick now r s).hotendTargetTemp (GRAPHWIDTH - 1) = r.degTargetHotend ∧
    (∀ i : Nat, i ≤ GRAPHWIDTH - 2 →
      (sampleTick now r s).bedTemp i = s.bedTemp (i + 1) ∧
      (sampleTick now r s).bedTargetTemp i = s.bedTargetTemp (i + 1) ∧
      (sampleTick now r s).hotendTemp i = s.hotendTemp (i + 1) ∧
      (sampleTick now r s).hotendTargetTemp i = s.hotendTargetTemp (i + 1)) := by
  have hl := sampleTick_last now r s
  obtain ⟨a1, a2, a3, a4⟩ := sampleTick_arrays now r s (by rw [hfull])
  refine ⟨?_, hl.1, hl.2.1, hl.2.2.1, hl.2.2.2, ?_⟩
  · rw [sampleTick_iterations, hfull]
    simp
  · intro i hi
    have key : ∀ (a : Nat → Nat) (v : Nat), ticked s.iterations a v i = a (i + 1) := by
      intro a v
      unfold ticked
      rw [hfull]
      unfold GRAPHWIDTH at *
      have h1 : ¬ i = 46 - 1 := by omega
      have h2 : 46 - 46 ≤ i ∧ i < 46 - 1 := by omega
      rw [if_neg h1, if_pos h2]
    rw [a1, a2, a3, a4]
    exact ⟨key _ _, key _ _, key _ _, key _ _⟩

/-- Witness of `steady_state_slide` on the full ramp history. -/
theorem steady_state_slide_witness :
    rampState.iterations = GRAPHWIDTH ∧
    (sampleTick 9000 heater200 rampState).iterations = GRAPHWIDTH ∧
    (sampleTick 9000 heater200 rampState).hotendTemp 0 = 1 :=
  ⟨rfl, (steady_state_slide 9000 heater200 rampState rfl).1,
    ((steady_state_slide 9000 heater200 rampState rfl).2.2.2.2.2 0 (by decide)).2.2.1⟩

/-- C9, counterexample: with `min = 0`, `max = 20` and `value = 0` the offset
is `1 * 21 / 22 = 0`, so the row is the baseline itself. -/
theorem offset_zero_on_wide_range :
    (0 : Int) ≤ 20 ∧ (0 : Int) ≤ 0 ∧
    ¬ (0 < graphOffset 0 0 20 ∧ graphOffset 0 0 20 < 21) ∧
    graphRow 21 0 0 20 = 21 := by
  decide

/-- C9 as amended: for `min ≤ value ≤ max` the offset is below `21`, so the
row is never the ceiling row `baseline - 21`; the offset is positive (the row
is off the baseline) exactly when `max - min + 2 ≤ (value - min + 1) * 21`, and
when `min = max` the offset is `10`. -/
theorem offset_below_ceiling (baseline value min max : Int)
    (hmin : min ≤ value) (hmax : value ≤ max) :
    graphOffset value min max < 21 ∧
    graphRow baseline value min max ≠ baseline - 21 ∧
    (0 < graphOffset value min max ↔ max - min + 2 ≤ (value - min + 1) * 21) ∧
    (graphRow baseline value min max = baseline ↔ (value - min + 1) * 21 < max - min + 2) ∧
    (min = max → graphOffset value min max = 10) := by
  have hd : 0 < max - min + 2 := by omega
  have hlt : graphOffset value min max < 21 := by
    rw [graphOffset_eq_ediv value min max hmin hmax]
    apply Int.ediv_lt_of_lt_mul hd
    nlinarith
  have hpos : 0 < graphOffset value min max ↔ max - min + 2 ≤ (value - min + 1) * 21 := by
    rw [graphOffset_eq_ediv value min max hmin hmax]
    have h := Int.le_ediv_iff_mul_le (a := 1) (b := (value - min + 1) * 21) hd
    rw [one_mul] at h
    exact h
  have hnn : 0 ≤ graphOffset value min max := by
    rw [graphOffset_eq_ediv value min max hmin hmax]
    exact Int.ediv_nonneg (by nlinarith) (by omega)
  refine ⟨hlt, ?_, hpos, ?_, ?_⟩
  · unfold graphRow
    omega
  · unfold graphRow
    constructor
    · intro h
      have h0 : ¬ 0 < graphOffset value min max := by omega
      rw [hpos] at h0
      omega
    · intro h
      have h0 : ¬ 0 < graphOffset value min max := by
        rw [hpos]
        omega
      omega
  · intro heq
    have hv : value = min := by omega
    subst heq
    subst hv
    unfold graphOffset
    simp
    decide

/-- Witness of `offset_below_ceiling` at the flat range `200..200`. -/
theorem offset_below_ceiling_witness :
    (200 : Int) ≤ 200 ∧ graphOffset 200 200 200 < 21 ∧ graphOffset 200 200 200 = 10 :=
  ⟨by decide, (offset_below_ceiling 21 200 200 200 (by decide) (by decide)).1,
    (offset_below_ceiling 21 200 200 200 (by decide) (by decide)).2.2.2.2 rfl⟩

/-- C12 (axis value display policy): for every axis and value string
(characters without NUL) the text written is (1) the value when `blink` is
true; (2) the `'?'`-substituted value when `blink` is false and the axis is
not homed; (3) seven spaces for the Z axis and four spaces for any other axis
when `blink` is false, the axis is homed, its position is not known and the
blanking condition is compiled in; (4) the value when `blink` is false, the
axis is homed and its position is known or the blanking is compiled out. -/
theorem axis_value_policy (blanking : Bool) (axis_homed axis_known_position axis : Nat)
    (value : List Int) (hstr : ∀ c ∈ value, c ≠ 0) :
    _draw_axis_value blanking axis_homed axis_known_position axis value true = value ∧
    (TEST axis_homed axis = false →
      _draw_axis_value blanking axis_homed axis_known_position axis value false
        = value.map (fun c => if c ≤ charCode '.' then c else charCode '?')) ∧
    (TEST axis_homed axis = true → TEST axis_known_position axis = false → blanking = true →
      _draw_axis_value blanking axis_homed axis_known_position axis value false
        = if axis = Z_AXIS then codes "       " else codes "    ") ∧
    (TEST axis_homed axis = true → (TEST axis_known_position axis = true ∨ blanking = false) →
      _draw_axis_value blanking axis_homed axis_known_position axis value false = value) := by
  have hput := lcd_put_u8str_eq value hstr
  refine ⟨?_, ?_, ?_, ?_⟩
  · simp [_draw_axis_value, hput]
  · intro hh
    simp only [_draw_axis_value, hh, putUnhomed_eq_map value hstr]
    rfl
  · intro hh hk hb
    simp [_draw_axis_value, hh, hk, hb]
  · intro hh hk
    rcases hk with hk | hb
    · simp [_draw_axis_value, hh, hk, hput]
    · simp [_draw_axis_value, hh, hb, hput]

/-- Witness of `axis_value_policy` on the value `"12.50"`: shown as is while
blinking, as `"??.??"` for the unhomed X axis, blanked with seven spaces for
the homed Z axis of unknown position and shown as is once it is known. -/
theorem axis_value_policy_witness :
    (∀ c ∈ codes "12.50", c ≠ 0) ∧
    _draw_axis_value true 0 0 0 (codes "12.50") true = codes "12.50" ∧
    _draw_axis_value true 4 0 0 (codes "12.50") false = codes "??.??" ∧
    _draw_axis_value true 4 0 2 (codes "12.50") false = codes "       " ∧
    _draw_axis_value true 4 4 2 (codes "12.50") false = codes "12.50" :=
  ⟨by decide,
    (axis_value_policy true 0 0 0 (codes "12.50") (by decide)).1,
    (axis_value_policy true 4 0 0 (codes "12.50") (by decide)).2.1 (by decide),
    (axis_value_policy true 4 0 2 (codes "12.50") (by decide)).2.2.1 (by decide) (by decide) rfl,
    (axis_value_policy true 4 4 2 (codes "12.50") (by decide)).2.2.2 (by decide)
      (Or.inl (by decide))⟩

/-- C15 (no out-of-bounds access): in every state reached from the
zero-initialised state by calls of the gated update the refresh counter is at
most `GRAPHWIDTH`, so `GRAPHWIDTH - iterations` is not negative and its
conversion to `uint8_t` is the difference itself, and every array index used
by the tick body and by the plot loop is below `GRAPHWIDTH`. -/
theorem indices_in_bounds (calls : List (Nat × Reading)) :
    (updateCalls calls GraphState.init).iterations ≤ GRAPHWIDTH ∧
    (0 : Int) ≤ (GRAPHWIDTH : Int) - ((updateCalls calls GraphState.init).iterations : Int) ∧
    firstIndex (updateCalls calls GraphState.init).iterations
      = GRAPHWIDTH - (updateCalls calls GraphState.init).iterations ∧
    (∀ i ∈ tickIndices (updateCalls calls GraphState.init).iterations, i < GRAPHWIDTH) ∧
    (∀ i ∈ plotIndices (updateCalls calls GraphState.init).iterations, i < GRAPHWIDTH) := by
  have hk : (updateCalls calls GraphState.init).iterations ≤ GRAPHWIDTH :=
    updateCalls_iterations_le calls GraphState.init (Nat.zero_le _)
  refine ⟨hk, by omega, firstIndex_of_le _ hk, ?_, ?_⟩
  · intro i hi
    unfold tickIndices at hi
    rw [List.mem_cons, List.mem_append, List.mem_flatMap, List.mem_singleton] at hi
    unfold GRAPHWIDTH at *
    rcases hi with h0 | ⟨j, hj, hij⟩ | hlast
    · omega
    · rw [mem_loopIndices] at hj
      simp only [List.mem_cons, List.mem_singleton, List.mem_nil_iff, or_false] at hij
      omega
    · omega
  · intro i hi
    unfold plotIndices at hi
    rw [mem_loopIndices] at hi
    exact hi.2

/-- C17 (the plot loop reads only populated slots): for a refresh counter
`iterations ≤ GRAPHWIDTH` the plot loop draws, for each `i` from
`GRAPHWIDTH - iterations` to `GRAPHWIDTH - 1` in order, the two heater points
(baseline `21`) and the two bed points (baseline `44`) at column `33 + i`:
`4 * iterations` points, none when the counter is `0`; and replacing the four
arrays by arrays that agree with them from slot `GRAPHWIDTH - iterations` on
does not change the points drawn. -/
theorem plot_only_populated (s : GraphState) (b bt h ht : Nat → Nat)
    (hk : s.iterations ≤ GRAPHWIDTH)
    (hb : ∀ i, GRAPHWIDTH - s.iterations ≤ i → b i = s.bedTemp i)
    (hbt : ∀ i, GRAPHWIDTH - s.iterations ≤ i → bt i = s.bedTargetTemp i)
    (hh : ∀ i, GRAPHWIDTH - s.iterations ≤ i → h i = s.hotendTemp i)
    (hht : ∀ i, GRAPHWIDTH - s.iterations ≤ i → ht i = s.hotendTargetTemp i) :
    plotGraph s = (List.range' (GRAPHWIDTH - s.iterations) s.iterations).flatMap (fun i =>
      [ (33 + (i : Int), 21 - graphOffset (s.hotendTemp i) s.hotendMinTemp s.hotendMaxTemp),
        (33 + (i : Int),
          21 - graphOffset (s.hotendTargetTemp i) s.hotendMinTemp s.hotendMaxTemp),
        (33 + (i : Int), 44 - graphOffset (s.bedTemp i) s.bedMinTemp s.bedMaxTemp),
        (33 + (i : Int), 44 - graphOffset (s.bedTargetTemp i) s.bedMinTemp s.bedMaxTemp) ]) ∧
    (plotGraph s).length = 4 * s.iterations ∧
    (s.iterations = 0 → plotGraph s = []) ∧
    plotGraph { s with bedTemp := b, bedTargetTemp := bt, hotendTemp := h,
                       hotendTargetTemp := ht } = plotGraph s := by
  have he := plotGraph_eq s hk
  refine ⟨?_, ?_, ?_, ?_⟩
  · rw [he]
    rfl
  · rw [he, length_flatMap_plotStep, List.length_range']
  · intro h0
    rw [he, h0]
    rfl
  · have he2 := plotGraph_eq (GraphState.mk s.time s.iterations b bt h ht s.bedMinTemp
      s.bedMaxTemp s.hotendMinTemp s.hotendMaxTemp) hk
    rw [he]
    refine he2.trans ?_
    apply List.flatMap_congr
    intro i hi
    rw [List.mem_range'_1] at hi
    simp only [plotStep, hb i hi.1, hbt i hi.1, hh i hi.1, hht i hi.1]

/-- Witness of `plot_only_populated`: with two populated slots, overwriting
slot `0` of the four arrays leaves the eight points drawn unchanged. -/
theorem plot_only_populated_witness :
    twoSlotState.iterations ≤ GRAPHWIDTH ∧
    (plotGraph twoSlotState).length = 4 * twoSlotState.iterations ∧
    plotGraph { twoSlotState with
        bedTemp := setAt twoSlotState.bedTemp 0 999
        bedTargetTemp := setAt twoSlotState.bedTargetTemp 0 999
        hotendTemp := setAt twoSlotState.hotendTemp 0 999
        hotendTargetTemp := setAt twoSlotState.hotendTargetTemp 0 999 }
      = plotGraph twoSlotState := by
  have hne : ∀ (a : Nat → Nat) (i : Nat), GRAPHWIDTH - twoSlotState.iterations ≤ i →
      setAt a 0 999 i = a i := by
    intro a i hi
    have h0 : i ≠ 0 := by
      intro h
      rw [h] at hi
      exact absurd hi (by decide)
    simp [setAt, h0]
  have hw := plot_only_populated twoSlotState
    (setAt twoSlotState.bedTemp 0 999) (setAt twoSlotState.bedTargetTemp 0 999)
    (setAt twoSlotState.hotendTemp 0 999) (setAt twoSlotState.hotendTargetTemp 0 999)
    (by decide) (hne _) (hne _) (hne _) (hne _)
  exact ⟨by decide, hw.2.1, hw.2.2.2⟩

/-- C19 (in-range values stay inside the graph band): for
`min ≤ value ≤ max` the offset `(value - min + 1) * 21 / (max - min + 2)` is
between `0` and `20`, so the row lies in `[baseline - 20, baseline]`: rows
`1..21` for the heater graph and `24..44` for the bed graph, never negative. -/
theorem offset_in_band (baseline value min max : Int)
    (hmin : min ≤ value) (hmax : value ≤ max) :
    0 ≤ graphOffset value min max ∧ graphOffset value min max ≤ 20 ∧
    baseline - 20 ≤ graphRow baseline value min max ∧
    graphRow baseline value min max ≤ baseline ∧
    1 ≤ graphRow 21 value min max ∧ graphRow 21 value min max ≤ 21 ∧
    24 ≤ graphRow 44 value min max ∧ graphRow 44 value min max ≤ 44 := by
  have hd : 0 < max - min + 2 := by omega
  have h0 : 0 ≤ graphOffset value min max := by
    rw [graphOffset_eq_ediv value min max hmin hmax]
    exact Int.ediv_nonneg (by nlinarith) (by omega)
  have h21 : graphOffset value min max < 21 := by
    rw [graphOffset_eq_ediv value min max hmin hmax]
    apply Int.ediv_lt_of_lt_mul hd
    nlinarith
  unfold graphRow
  refine ⟨h0, ?_, ?_, ?_, ?_, ?_, ?_, ?_⟩ <;> omega

/-- Witness of `offset_in_band` for the value `205` in the range `200..210`. -/
theorem offset_in_band_witness :
    (200 : Int) ≤ 205 ∧ (205 : Int) ≤ 210 ∧
    0 ≤ graphOffset 205 200 210 ∧ graphOffset 205 200 210 ≤ 20 :=
  ⟨by decide, by decide,
    (offset_in_band 21 205 200 210 (by decide) (by decide)).1,
    (offset_in_band 21 205 200 210 (by decide) (by decide)).2.1⟩

/-- C18 (the stored range lags the buffer by one sample): for a refresh
counter `k ≤ GRAPHWIDTH`, after an elapsed tick each family's `min` is the
least and its `max` the greatest of the pre-tick values, over both series, in
slot `0` and slots `GRAPHWIDTH - k + 1` to `GRAPHWIDTH - 1`; the range is the
same whatever reading the tick appends, and for `k = GRAPHWIDTH` the slots
are all of `0` to `GRAPHWIDTH - 1`. -/
theorem range_lags_one_sample (now : Nat) (r r' : Reading) (s : GraphState)
    (hk : s.iterations ≤ GRAPHWIDTH) :
    ((sampleTick now r s).hotendMinTemp
        ∈ rangeValues s.iterations s.hotendTemp s.hotendTargetTemp ∧
      ∀ v ∈ rangeValues s.iterations s.hotendTemp s.hotendTargetTemp,
        (sampleTick now r s).hotendMinTemp ≤ v) ∧
    ((sampleTick now r s).hotendMaxTemp
        ∈ rangeValues s.iterations s.hotendTemp s.hotendTargetTemp ∧
      ∀ v ∈ rangeValues s.iterations s.hotendTemp s.hotendTargetTemp,
        v ≤ (sampleTick now r s).hotendMaxTemp) ∧
    ((sampleTick now r s).bedMinTemp ∈ rangeValues s.iterations s.bedTemp s.bedTargetTemp ∧
      ∀ v ∈ rangeValues s.iterations s.bedTemp s.bedTargetTemp,
        (sampleTick now r s).bedMinTemp ≤ v) ∧
    ((sampleTick now r s).bedMaxTemp ∈ rangeValues s.iterations s.bedTemp s.bedTargetTemp ∧
      ∀ v ∈ rangeValues s.iterations s.bedTemp s.bedTargetTemp,
        v ≤ (sampleTick now r s).bedMaxTemp) ∧
    ((sampleTick now r' s).hotendMinTemp = (sampleTick now r s).hotendMinTemp ∧
      (sampleTick now r' s).hotendMaxTemp = (sampleTick now r s).hotendMaxTemp ∧
      (sampleTick now r' s).bedMinTemp = (sampleTick now r s).bedMinTemp ∧
      (sampleTick now r' s).bedMaxTemp = (sampleTick now r s).bedMaxTemp) ∧
    rangeSlots GRAPHWIDTH = List.range GRAPHWIDTH := by
  obtain ⟨e1, e2, e3, e4⟩ := sampleTick_channels now r s
  obtain ⟨f1, f2, f3, f4⟩ := sampleTick_channels now r' s
  obtain ⟨hlo, hhi⟩ := tickChannel_range s.iterations hk s.hotendTemp s.hotendTargetTemp
  obtain ⟨blo, bhi⟩ := tickChannel_range s.iterations hk s.bedTemp s.bedTargetTemp
  rw [e1, e2, e3, e4, f1, f2, f3, f4]
  exact ⟨hlo, hhi, blo, bhi, ⟨rfl, rfl, rfl, rfl⟩, by decide⟩

/-- Witness of `range_lags_one_sample` on the full ramp history: the tick
appending a heater reading of `200` leaves the heater range at `0..145`, the
range of the pre-tick buffer. -/
theorem range_lags_one_sample_witness :
    rampState.iterations ≤ GRAPHWIDTH ∧
    (∀ v ∈ rangeValues rampState.iterations rampState.hotendTemp rampState.hotendTargetTemp,
      (sampleTick 9000 heater200 rampState).hotendMinTemp ≤ v) ∧
    (sampleTick 9000 ⟨0, 0, 0, 0⟩ rampState).hotendMaxTemp
      = (sampleTick 9000 heater200 rampState).hotendMaxTemp :=
  ⟨by decide,
    (range_lags_one_sample 9000 heater200 ⟨0, 0, 0, 0⟩ rampState (by decide)).1.2,
    (range_lags_one_sample 9000 heater200 ⟨0, 0, 0, 0⟩ rampState (by decide)).2.2.2.2.1.2.1⟩

/-- C14, counterexample: at `percent = 100` the end point of the needle is not
`(68, 63)`. -/
theorem needle_at_100_not_68_63 : needleEnd 100 ≠ (68, 63) := by
  have hx : truncateReal (needleX 100) = 67 :=
    truncateReal_eq _ 67 (by decide) (by exact_mod_cast needleX_hundred_bounds.1)
      (by have h := needleX_hundred_bounds.2; norm_num; linarith)
  intro h
  have h1 : (needleEnd 100).1 = 68 := by rw [h]
  have h2 : (needleEnd 100).1 = 67 := hx
  rw [h2] at h1
  exact absurd h1 (by decide)

/-- C14 as amended (gauge needle at known percentages): with real arithmetic
and truncation to pixel coordinates, the end point of the needle is `(38, 63)`
at `percent = 0` and `(67, 62)` at `percent = 100`. -/
theorem needle_end_points : needleEnd 0 = (38, 63) ∧ needleEnd 100 = (67, 62) := by
  have hx0 : truncateReal (needleX 0) = 38 :=
    truncateReal_eq _ 38 (by decide) (by exact_mod_cast needleX_zero_bounds.1)
      (by have h := needleX_zero_bounds.2; norm_num; linarith)
  have hy0 : truncateReal (needleY 0) = 63 :=
    truncateReal_eq _ 63 (by decide) (by rw [needleY_zero_eq]; norm_num)
      (by rw [needleY_zero_eq]; norm_num)
  have hx1 : truncateReal (needleX 100) = 67 :=
    truncateReal_eq _ 67 (by decide) (by exact_mod_cast needleX_hundred_bounds.1)
      (by have h := needleX_hundred_bounds.2; norm_num; linarith)
  have hy1 : truncateReal (needleY 100) = 62 :=
    truncateReal_eq _ 62 (by decide) (by exact_mod_cast needleY_hundred_bounds.1)
      (by have h := needleY_hundred_bounds.2; norm_num; linarith)
  unfold needleEnd
  rw [hx0, hy0, hx1, hy1]
  exact ⟨rfl, rfl⟩

/-- C16 (Z-bar loop out of range), evaluated on the code: at `z = 400`,
`zMax = 200` every operation of the bound is exact, the bound
`62 - 400 * 36 / 200` is `-10`, the condition `i > -10` holds for every
`uint16_t` value of `i`, and the loop does not end with any amount of fuel. -/
theorem zBar_loop_never_ends (R : Rounding) (fuel : Nat) :
    zBarBound R 400 200 = -10 ∧ zBarRows R fuel 400 200 = none ∧
    zBarPixels R fuel 400 200 = none := by
  have e1 : R.rnd (400 * 36) = 14400 := by
    have h := rnd_nat R 14400 (by norm_num)
    norm_num at h ⊢
    exact h
  have e2 : R.rnd 72 = 72 := by
    have h := rnd_nat R 72 (by norm_num)
    simpa using h
  have e3 : R.rnd (-10) = -10 := by
    have h := rnd_int R (-10) (by norm_num)
    simpa using h
  have hb : zBarBound R 400 200 = -10 := by
    unfold zBarBound
    rw [e1]
    norm_num
    rw [e2]
    norm_num
    exact e3
  have hrows : zBarRows R fuel 400 200 = none := by
    unfold zBarRows
    exact zBarLoop_below_zero _ (by rw [hb]; norm_num) fuel 63
  refine ⟨hb, hrows, ?_⟩
  rw [zBarPixels, hrows]
  rfl

/-- C10, counterexample: at `z = 1`, `zMax = 200` the rounded height
`round (1 * 36 / 200)` is `0` but, whatever the rounding of the floating-point
operations, the loop fills the two rows `63` and `62`; at `z = 0` it fills
row `63` across columns `81..87`. -/
theorem zBar_rows_not_round :
    (∀ R : Rounding, zBarRows R 64 1 200 = some [63, 62]) ∧
    round ((1 : ℚ) * 36 / 200) = 0 ∧
    (∀ R : Rounding,
      ¬ ((zBarRows R 64 1 200).map List.length = some (round ((1 : ℚ) * 36 / 200)).toNat)) ∧
    (∀ R : Rounding, zBarRows R 64 0 200 = some [63]) ∧
    (∀ R : Rounding, zBarPixels R 64 0 200
      = some [(81, 63), (82, 63), (83, 63), (84, 63), (85, 63), (86, 63), (87, 63)]) := by
  have h1 : ∀ R : Rounding, zBarRows R 64 1 200 = some [63, 62] := by
    intro R
    obtain ⟨_, _, hlo, hhi⟩ := zBarBound_near R 1 200 (by norm_num) (by norm_num) (by norm_num)
    have hfl : ⌊zBarBound R 1 200⌋₊ = 61 := by
      rw [Nat.floor_eq_iff (by linarith)]
      constructor
      · norm_num at hlo ⊢
        linarith
      · norm_num at hhi ⊢
        linarith
    rw [zBarRows_in_range R 64 1 200 (by norm_num) (by norm_num) (by norm_num) (by decide), hfl]
    rfl
  have h0 : ∀ R : Rounding, zBarRows R 64 0 200 = some [63] := by
    intro R
    have hfl : ⌊zBarBound R 0 200⌋₊ = 62 := by
      rw [zBarBound_zero]
      exact Nat.floor_ofNat 62
    rw [zBarRows_in_range R 64 0 200 (by norm_num) (by norm_num) (by norm_num) (by decide), hfl]
    rfl
  have hr : round ((1 : ℚ) * 36 / 200) = 0 := by
    norm_num [round_eq]
  refine ⟨h1, hr, ?_, h0, ?_⟩
  · intro R
    rw [h1 R, hr]
    decide
  · intro R
    rw [zBarPixels, h0 R]
    decide

/-- C10 as amended (Z-bar fill height): for `0 ≤ z ≤ zMax` the loop
terminates and fills exactly the `n` rows `63, 62, ..., 64 - n`, each across
columns `81..87`, where `n = 63 - ⌊b⌋` for the floating-point value `b` of
`62 - z * 36 / zMax`; `n` is at least `1` (row `63` is filled for every `z`,
and alone for `z = 0`), it lies between `⌈z * 36 / zMax⌉` and
`⌈z * 36 / zMax⌉ + 2`, and it is `1 + ⌈z * 36 / zMax⌉` when no operation
rounds. -/
theorem zBar_rows_block (R : Rounding) (fuel : Nat) (z zMax : ℚ) (h0 : 0 ≤ z)
    (h1 : z ≤ zMax) (hpos : 0 < zMax) (hfuel : 64 ≤ fuel) :
    zBarRows R fuel z zMax
      = some ((List.range (63 - ⌊zBarBound R z zMax⌋₊)).map (fun k => 63 - k)) ∧
    zBarPixels R fuel z zMax
      = some (((List.range (63 - ⌊zBarBound R z zMax⌋₊)).map (fun k => 63 - k)).flatMap
          (fun i => [(81, i), (82, i), (83, i), (84, i), (85, i), (86, i), (87, i)])) ∧
    1 ≤ 63 - ⌊zBarBound R z zMax⌋₊ ∧
    ⌈z * 36 / zMax⌉₊ ≤ 63 - ⌊zBarBound R z zMax⌋₊ ∧
    63 - ⌊zBarBound R z zMax⌋₊ ≤ ⌈z * 36 / zMax⌉₊ + 2 ∧
    zBarRows R fuel 0 zMax = some [63] ∧
    zBarRows exactRounding fuel z zMax
      = some ((List.range (1 + ⌈z * 36 / zMax⌉₊)).map (fun k => 63 - k)) := by
  have ht0 : 0 ≤ z * 36 / zMax := by positivity
  have ht36 : z * 36 / zMax ≤ 36 := by
    rw [div_le_iff₀ hpos]
    nlinarith
  have hc36 : ⌈z * 36 / zMax⌉₊ ≤ 36 := by
    apply Nat.ceil_le.mpr
    exact_mod_cast ht36
  have hle := Nat.le_ceil (z * 36 / zMax)
  have hlt := Nat.ceil_lt_add_one ht0
  have hrows := zBarRows_in_range R fuel z zMax h0 h1 hpos hfuel
  obtain ⟨hb25, hb62, hblo, hbhi⟩ := zBarBound_near R z zMax h0 h1 hpos
  have hbnn : 0 ≤ zBarBound R z zMax := by linarith
  have hf62 : ⌊zBarBound R z zMax⌋₊ ≤ 62 := by
    have h : ⌊zBarBound R z zMax⌋₊ < 63 := by
      rw [Nat.floor_lt hbnn]
      push_cast
      linarith
    omega
  have hfhi : ⌊zBarBound R z zMax⌋₊ < 64 - ⌈z * 36 / zMax⌉₊ := by
    rw [Nat.floor_lt hbnn, Nat.cast_sub (by omega)]
    push_cast
    linarith
  have hflo : 61 - ⌈z * 36 / zMax⌉₊ ≤ ⌊zBarBound R z zMax⌋₊ := by
    apply Nat.le_floor
    rw [Nat.cast_sub (by omega)]
    push_cast
    linarith
  have hrow : zBarRow
      = fun i => [(81, i), (82, i), (83, i), (84, i), (85, i), (86, i), (87, i)] := by
    funext i
    rfl
  refine ⟨hrows, ?_, by omega, by omega, by omega, ?_, ?_⟩
  · rw [zBarPixels, hrows, hrow]
    rfl
  · have hfl : ⌊zBarBound R 0 zMax⌋₊ = 62 := by
      rw [zBarBound_zero]
      exact Nat.floor_ofNat 62
    rw [zBarRows_in_range R fuel 0 zMax (le_refl 0) (le_of_lt hpos) hpos hfuel, hfl]
    rfl
  · have hex : zBarBound exactRounding z zMax = 62 - z * 36 / zMax := rfl
    have hfl : ⌊zBarBound exactRounding z zMax⌋₊ = 62 - ⌈z * 36 / zMax⌉₊ := by
      rw [hex, Nat.floor_eq_iff (by linarith), Nat.cast_sub (by omega)]
      push_cast
      constructor <;> linarith
    rw [zBarRows_in_range exactRounding fuel z zMax h0 h1 hpos hfuel, hfl]
    have hn : 63 - (62 - ⌈z * 36 / zMax⌉₊) = 1 + ⌈z * 36 / zMax⌉₊ := by omega
    rw [hn]

/-- Witness of `zBar_rows_block` at `z = 100`, `zMax = 200` in exact
arithmetic. -/
theorem zBar_rows_block_witness :
    (0 : ℚ) ≤ 100 ∧ (100 : ℚ) ≤ 200 ∧ (0 : ℚ) < 200 ∧ 64 ≤ 64 ∧
    1 ≤ 63 - ⌊zBarBound exactRounding 100 200⌋₊ ∧
    zBarRows exactRounding 64 0 200 = some [63] :=
  ⟨by norm_num, by norm_num, by norm_num, by decide,
    (zBar_rows_block exactRounding 64 100 200 (by norm_num) (by norm_num) (by norm_num)
      (by decide)).2.2.1,
    (zBar_rows_block exactRounding 64 100 200 (by norm_num) (by norm_num) (by norm_num)
      (by decide)).2.2.2.2.2.1⟩

/-- C11 (Z-bar fill monotonicity): for `zMax > 0` and `z1 < z2`, both in
`[0, zMax]`, and for every rounding of the floating-point operations, the loop
terminates for both and the number of rows it fills for `z1` is at most the
number it fills for `z2`. -/
theorem zBar_rows_monotone (R : Rounding) (fuel : Nat) (z1 z2 zMax : ℚ) (hpos : 0 < zMax)
    (h1 : 0 ≤ z1) (h12 : z1 < z2) (h2 : z2 ≤ zMax) (hfuel : 64 ≤ fuel) :
    ∃ rows1 rows2 : List Nat,
      zBarRows R fuel z1 zMax = some rows1 ∧ zBarRows R fuel z2 zMax = some rows2 ∧
      rows1.length ≤ rows2.length := by
  have e1 := zBarRows_in_range R fuel z1 zMax h1 (by linarith) hpos hfuel
  have e2 := zBarRows_in_range R fuel z2 zMax (by linarith) h2 hpos hfuel
  refine ⟨_, _, e1, e2, ?_⟩
  simp only [List.length_map, List.length_range]
  have hfl : ⌊zBarBound R z2 zMax⌋₊ ≤ ⌊zBarBound R z1 zMax⌋₊ :=
    Nat.floor_mono (zBarBound_antitone R z1 z2 zMax (le_of_lt h12) hpos)
  omega

/-- Witness of `zBar_rows_monotone` at `z1 = 50`, `z2 = 100`, `zMax = 200` in
exact arithmetic. -/
theorem zBar_rows_monotone_witness :
    (0 : ℚ) < 200 ∧ (0 : ℚ) ≤ 50 ∧ (50 : ℚ) < 100 ∧ (100 : ℚ) ≤ 200 ∧
    ∃ rows1 rows2 : List Nat,
      zBarRows exactRounding 64 50 200 = some rows1 ∧
      zBarRows exactRounding 64 100 200 = some rows2 ∧
      rows1.length ≤ rows2.length :=
  ⟨by norm_num, by norm_num, by norm_num, by norm_num,
    zBar_rows_monotone exactRounding 64 50 100 200 (by norm_num) (by norm_num) (by norm_num)
      (by norm_num) (by decide)⟩

/-- C13, counterexample: at `x = xMax = 200` and `y = yMax = 200` every
floating-point operation is exact and the pixel is `(127, 26)`: column `127`
and row `26` lie on the outline of the frame drawn at `(90, 26)` with size
`38 x 38`, not strictly inside it. -/
theorem xy_point_on_outline :
    (∀ R : Rounding, xyPixel R 200 200 200 200 = (127, 26)) ∧
    (∀ R : Rounding, ¬ ((xyPixel R 200 200 200 200).1 ≤ 126)) ∧
    (∀ R : Rounding, ¬ (27 ≤ (xyPixel R 200 200 200 200).2)) := by
  have h : ∀ R : Rounding, xyPixel R 200 200 200 200 = (127, 26) := by
    intro R
    have e1 : R.rnd (200 * 36) = 7200 := by
      have h := rnd_nat R 7200 (by norm_num)
      norm_num at h ⊢
      exact h
    have e2 : R.rnd 36 = 36 := by
      have h := rnd_nat R 36 (by norm_num)
      simpa using h
    have e3 : R.rnd 127 = 127 := by
      have h := rnd_nat R 127 (by norm_num)
      simpa using h
    have e4 : R.rnd 26 = 26 := by
      have h := rnd_nat R 26 (by norm_num)
      simpa using h
    have e5 : (7200 : ℚ) / 200 = 36 := by norm_num
    have e6 : (91 : ℚ) + 36 = 127 := by norm_num
    have e7 : (62 : ℚ) - 36 = 26 := by norm_num
    unfold xyPixel
    rw [e1, e5, e2, e6, e7, e3, e4]
    norm_num [truncate]
  refine ⟨h, ?_, ?_⟩
  · intro R
    rw [h R]
    decide
  · intro R
    rw [h R]
    decide

/-- C13 as amended (XY point placement): for `0 ≤ x ≤ xMax` and
`0 ≤ y ≤ yMax`, and for every rounding of the floating-point operations, the
pixel satisfies `91 ≤ px ≤ 127` and `25 ≤ py ≤ 62`; when the product
`yMax * 36` is exact (as for every integer `yMax` up to `466033`) also
`26 ≤ py`, so that the pixel lies within the frame, outline included. -/
theorem xy_point_in_frame (R : Rounding) (x y xMax yMax : ℚ) (hx0 : 0 ≤ x) (hx1 : x ≤ xMax)
    (hy0 : 0 ≤ y) (hy1 : y ≤ yMax) (hxMax : 0 < xMax) (hyMax : 0 < yMax) :
    91 ≤ (xyPixel R x y xMax yMax).1 ∧ (xyPixel R x y xMax yMax).1 ≤ 127 ∧
    25 ≤ (xyPixel R x y xMax yMax).2 ∧ (xyPixel R x y xMax yMax).2 ≤ 62 ∧
    (R.rnd (yMax * 36) = yMax * 36 → 26 ≤ (xyPixel R x y xMax yMax).2) := by
  obtain ⟨hq0, _, hqhi⟩ := scaled_near R x xMax hx0 hx1 hxMax
  have htx1 : x * 36 / xMax ≤ 36 := by
    rw [div_le_iff₀ hxMax]
    nlinarith
  have ha0 : 0 ≤ 91 + R.rnd (R.rnd (x * 36) / xMax) := by linarith
  have ha91 : (91 : ℚ) ≤ R.rnd (91 + R.rnd (R.rnd (x * 36) / xMax)) := by
    have h := int_le_rnd R (91 + R.rnd (R.rnd (x * 36) / xMax)) 91 (by norm_num)
      (by push_cast; linarith)
    simpa using h
  have ha128 : R.rnd (91 + R.rnd (R.rnd (x * 36) / xMax)) < 128 := by
    obtain ⟨_, hd⟩ := rnd_near R _ ha0
    have hs : (91 + R.rnd (R.rnd (x * 36) / xMax)) / 2 ^ 24 ≤ 128 / 2 ^ 24 :=
      div_le_div_of_nonneg_right (by linarith) (by positivity)
    have hnum : (128 : ℚ) / 2 ^ 24 ≤ 1 / 1000 := by norm_num
    linarith
  have hpx : (xyPixel R x y xMax yMax).1 = ⌊R.rnd (91 + R.rnd (R.rnd (x * 36) / xMax))⌋ :=
    truncate_of_nonneg _ (by linarith)
  obtain ⟨hb25, hb62, _, _⟩ := zBarBound_near R y yMax hy0 hy1 hyMax
  have hpy : (xyPixel R x y xMax yMax).2 = ⌊zBarBound R y yMax⌋ := by
    rw [xyPixel_snd]
    exact truncate_of_nonneg _ (by linarith)
  rw [hpx, hpy]
  refine ⟨?_, ?_, ?_, ?_, ?_⟩
  · rw [Int.le_floor]
    push_cast
    exact ha91
  · have h : ⌊R.rnd (91 + R.rnd (R.rnd (x * 36) / xMax))⌋ < 128 := by
      rw [Int.floor_lt]
      push_cast
      exact ha128
    omega
  · rw [Int.le_floor]
    push_cast
    exact hb25
  · have h : ⌊zBarBound R y yMax⌋ < 63 := by
      rw [Int.floor_lt]
      push_cast
      linarith
    omega
  · intro hrep
    rw [Int.le_floor]
    push_cast
    exact zBarBound_of_exact_product R y yMax hy1 hyMax hrep

/-- Witness of `xy_point_in_frame` at the centre of a `200 x 200` bed in exact
arithmetic. -/
theorem xy_point_in_frame_witness :
    (0 : ℚ) ≤ 100 ∧ (100 : ℚ) ≤ 200 ∧ (0 : ℚ) < 200 ∧
    exactRounding.rnd ((200 : ℚ) * 36) = (200 : ℚ) * 36 ∧
    91 ≤ (xyPixel exactRounding 100 100 200 200).1 ∧
    (xyPixel exactRounding 100 100 200 200).1 ≤ 127 ∧
    26 ≤ (xyPixel exactRounding 100 100 200 200).2 :=
  ⟨by norm_num, by norm_num, by norm_num, rfl,
    (xy_point_in_frame exactRounding 100 100 200 200 (by norm_num) (by norm_num) (by norm_num)
      (by norm_num) (by norm_num) (by norm_num)).1,
    (xy_point_in_frame exactRounding 100 100 200 200 (by norm_num) (by norm_num) (by norm_num)
      (by norm_num) (by norm_num) (by norm_num)).2.1,
    (xy_point_in_frame exactRounding 100 100 200 200 (by norm_num) (by norm_num) (by norm_num)
      (by norm_num) (by norm_num) (by norm_num)).2.2.2.2 rfl⟩

end StatusScreen
